import Mathlib

/-!
Verification of the rethos serial bridge daemon core
(dist/tools/rethos/rethos.c): Fletcher-16 checksum, frame codec,
receive state machine, stop-and-wait link engine and event dispatcher.

Bytes are modelled as `Nat` values below 256 (the `char`/`uint8_t`
octets of the wire), 16-bit quantities as `Nat` reduced `% 65536`
where the C code performs `uint16_t` arithmetic, and the `uint64_t`
statistics counters as `Nat` reduced `% 2^64`.
-/

set_option maxRecDepth 8192

namespace Rethos

/-- MTU from `#define MTU 16384`. -/
def MTU : Nat := 16384

/-- Escape character `RETHOS_ESC_CHAR` (0xBE). -/
def ESC_CHAR : Nat := 0xBE

/-- Literal-escape byte `RETHOS_LITERAL_ESC` (0x55). -/
def LITERAL_ESC : Nat := 0x55

/-- Frame start byte `RETHOS_FRAME_START` (0xEF). -/
def FRAME_START : Nat := 0xEF

/-- Frame end byte `RETHOS_FRAME_END` (0xE5). -/
def FRAME_END : Nat := 0xE5

/-- Frame type `RETHOS_FRAME_TYPE_DATA` (0x1). -/
def TYPE_DATA : Nat := 0x1

/-- Frame type `RETHOS_FRAME_TYPE_ACK` (0x4). -/
def TYPE_ACK : Nat := 0x4

/-- Frame type `RETHOS_FRAME_TYPE_NACK` (0x5). -/
def TYPE_NACK : Nat := 0x5

/-! ## Fletcher-16 accumulator

`fletcher16_add` processes its input in blocks of at most 20 bytes,
performing the reduction `sum = (sum & 0xff) + (sum >> 8)` after each
block; both accumulators are `uint16_t`, so every addition is `% 65536`.
-/

/-- One reduction step `(sum & 0xff) + (sum >> 8)` on a 16-bit accumulator. -/
def reduce (s : Nat) : Nat := s % 256 + s / 256

/-- Reduce both accumulators, as done after each block of `fletcher16_add`. -/
def reduce2 (p : Nat × Nat) : Nat × Nat := (reduce p.1, reduce p.2)

/-- The inner loop body `sum2 += sum1 += *data++` of `fletcher16_add`,
on `uint16_t` accumulators. -/
def fl_step (p : Nat × Nat) (b : Nat) : Nat × Nat :=
  ((p.1 + b) % 65536, (p.2 + (p.1 + b) % 65536) % 65536)

/-- One unreduced block of `fletcher16_add` (the `do … while (--tlen)` loop). -/
def fl_chunk (p : Nat × Nat) (l : List Nat) : Nat × Nat := l.foldl fl_step p

/-- Single pass of `fletcher16_add`: `k` counts the bytes already processed
in the current block; after every 20th byte, and after the final partial
block, both accumulators are reduced. -/
def fletcher16_go : List Nat → Nat → Nat × Nat → Nat × Nat
  | [], _, p => p
  | b :: t, k, p =>
      if k = 19 ∨ t = [] then fletcher16_go t 0 (reduce2 (fl_step p b))
      else fletcher16_go t (k + 1) (fl_step p b)

/-- `fletcher16_add(data, bytes, sum1, sum2)`: process the data in blocks
of at most 20 bytes, reducing both accumulators after each block. -/
def fletcher16_add (l : List Nat) (p : Nat × Nat) : Nat × Nat :=
  fletcher16_go l 0 p

/-- `fletcher16_fin(sum1, sum2)`: reduce once more and return
`(sum2 << 8) | sum1` as a `uint16_t`. -/
def fletcher16_fin (p : Nat × Nat) : Nat :=
  (((reduce p.2) <<< 8) ||| reduce p.1) % 65536

/-- The receive state machine folds the checksum one byte at a time
(`fletcher16_add(&c, 1, …)`); `byteFold` is that per-byte folding. -/
def byteFold (p : Nat × Nat) (l : List Nat) : Nat × Nat :=
  l.foldl (fun q b => fletcher16_add [b] q) p

theorem fletcher16_add_nil (p : Nat × Nat) : fletcher16_add [] p = p := rfl

theorem fletcher16_add_singleton (b : Nat) (p : Nat × Nat) :
    fletcher16_add [b] p = reduce2 (fl_step p b) := rfl

/-- The single-pass accumulation agrees with the block-at-a-time view:
processing splits off the first block of (at most) `20 - k` remaining
bytes, reduces, and continues. -/
theorem fletcher16_go_chunk : ∀ (l : List Nat) (k : Nat) (p : Nat × Nat),
    l ≠ [] → k ≤ 19 →
    fletcher16_go l k p =
      fletcher16_go (l.drop (20 - k)) 0 (reduce2 (fl_chunk p (l.take (20 - k)))) := by
  intro l
  induction l with
  | nil => intro k p h; exact absurd rfl h
  | cons b t ih =>
    intro k p _ hk
    by_cases hstop : k = 19 ∨ t = []
    · rw [show fletcher16_go (b :: t) k p
            = fletcher16_go t 0 (reduce2 (fl_step p b)) by
          simp only [fletcher16_go, if_pos hstop]]
      rcases hstop with h19 | hnil
      · subst h19
        simp [fl_chunk]
      · subst hnil
        obtain ⟨m, hm⟩ : ∃ m, 20 - k = m + 1 := ⟨20 - k - 1, by omega⟩
        rw [hm]
        simp [fl_chunk, fletcher16_go]
    · push_neg at hstop
      obtain ⟨hk19, htne⟩ := hstop
      have hcond : ¬(k = 19 ∨ t = []) := by tauto
      rw [show fletcher16_go (b :: t) k p
            = fletcher16_go t (k + 1) (fl_step p b) by
          simp only [fletcher16_go, if_neg hcond]]
      rw [ih (k + 1) (fl_step p b) htne (by omega)]
      have h1 : (20 - k) = (20 - (k + 1)) + 1 := by omega
      rw [h1, List.drop_succ_cons, List.take_succ_cons]
      rfl

/-- Block-splitting equation for `fletcher16_add`. -/
theorem fletcher16_add_chunk (l : List Nat) (p : Nat × Nat) (h : l ≠ []) :
    fletcher16_add l p =
      fletcher16_add (l.drop 20) (reduce2 (fl_chunk p (l.take 20))) := by
  unfold fletcher16_add
  simpa using fletcher16_go_chunk l 0 p h (by omega)

/-! ### Schedule-independence of the finalized checksum

The encoder folds the checksum in two blocked `fletcher16_add` calls
(header, then payload); the decoder folds it one byte at a time.  The
two schedules reduce at different points, but agree after
`fletcher16_fin`: each reduction preserves the accumulator value
`% 255` and keeps it positive, all intermediate sums stay below
`2^16` (so the `uint16_t` wraparound never fires), and finalization
maps any positive value `≤ 510` to its canonical representative in
`[1, 255]`. -/

/-- Well-formedness of an accumulator pair between `fletcher16_add` calls:
positive and at most 510 (the image of `reduce` on `uint16_t` values). -/
def GoodAcc (p : Nat × Nat) : Prop :=
  1 ≤ p.1 ∧ p.1 ≤ 510 ∧ 1 ≤ p.2 ∧ p.2 ≤ 510

/-- Congruence of two accumulator pairs modulo 255. -/
def CongAcc (p q : Nat × Nat) : Prop :=
  p.1 % 255 = q.1 % 255 ∧ p.2 % 255 = q.2 % 255

/-- Ghost schedule: plain unbounded additions with no reduction. -/
def pure_step (p : Nat × Nat) (b : Nat) : Nat × Nat := (p.1 + b, p.2 + p.1 + b)

/-- Fold of the ghost schedule. -/
def pureFold (p : Nat × Nat) (l : List Nat) : Nat × Nat := l.foldl pure_step p

theorem reduce_mod255 (s : Nat) : reduce s % 255 = s % 255 := by
  unfold reduce
  omega

theorem reduce_pos (s : Nat) (h : 1 ≤ s) : 1 ≤ reduce s := by
  unfold reduce
  omega

theorem reduce_le (s : Nat) (h : s < 65536) : reduce s ≤ 510 := by
  unfold reduce
  omega

theorem reduce_canon (s : Nat) (h1 : 1 ≤ s) (h2 : s ≤ 510) :
    1 ≤ reduce s ∧ reduce s ≤ 255 := by
  unfold reduce
  omega

theorem canon_unique (a b : Nat) (ha1 : 1 ≤ a) (ha2 : a ≤ 255)
    (hb1 : 1 ≤ b) (hb2 : b ≤ 255) (h : a % 255 = b % 255) : a = b := by
  omega

theorem pure_step_cong (p q : Nat × Nat) (b : Nat) (h : CongAcc p q) :
    CongAcc (pure_step p b) (pure_step q b) := by
  obtain ⟨h1, h2⟩ := h
  constructor <;> simp only [pure_step] <;> omega

theorem pureFold_cong (l : List Nat) (p q : Nat × Nat) (h : CongAcc p q) :
    CongAcc (pureFold p l) (pureFold q l) := by
  induction l generalizing p q with
  | nil => exact h
  | cons b t ih =>
    simp only [pureFold, List.foldl_cons] at *
    exact ih _ _ (pure_step_cong p q b h)

theorem reduce2_cong (p : Nat × Nat) : CongAcc (reduce2 p) p :=
  ⟨reduce_mod255 p.1, reduce_mod255 p.2⟩

theorem congAcc_refl (p : Nat × Nat) : CongAcc p p := ⟨rfl, rfl⟩

theorem congAcc_symm {p q : Nat × Nat} (h : CongAcc p q) : CongAcc q p :=
  ⟨h.1.symm, h.2.symm⟩

theorem congAcc_trans {p q r : Nat × Nat} (h1 : CongAcc p q) (h2 : CongAcc q r) :
    CongAcc p r :=
  ⟨h1.1.trans h2.1, h1.2.trans h2.2⟩

theorem pureFold_pos (l : List Nat) (p : Nat × Nat) (h1 : 1 ≤ p.1) (h2 : 1 ≤ p.2) :
    1 ≤ (pureFold p l).1 ∧ 1 ≤ (pureFold p l).2 := by
  induction l generalizing p with
  | nil => exact ⟨h1, h2⟩
  | cons b t ih =>
    simp only [pureFold, List.foldl_cons] at *
    exact ih (pure_step p b) (by simp only [pure_step]; omega)
      (by simp only [pure_step]; omega)

theorem fl_chunk_bounded (t : List Nat) : ∀ (p : Nat × Nat) (n : Nat),
    (∀ b ∈ t, b < 256) → t.length + n ≤ 20 →
    p.1 ≤ 510 + 255 * n →
    2 * p.2 ≤ 1020 + 1020 * n + 255 * (n * n) + 255 * n →
    fl_chunk p t = pureFold p t ∧
    (pureFold p t).1 ≤ 510 + 255 * (n + t.length) ∧
    2 * (pureFold p t).2 ≤ 1020 + 1020 * (n + t.length) +
      255 * ((n + t.length) * (n + t.length)) + 255 * (n + t.length) := by
  induction t with
  | nil =>
    intro p n _ _ hp1 hp2
    refine ⟨rfl, ?_, ?_⟩ <;> simpa [pureFold] using by omega
  | cons b t ih =>
    intro p n hb hlen hp1 hp2
    have hblt : b < 256 := hb b (List.mem_cons_self b t)
    have hn : n ≤ 19 := by simp only [List.length_cons] at hlen; omega
    have hnn : n * n ≤ 19 * 19 := Nat.mul_le_mul hn hn
    have hexp : (n + 1) * (n + 1) = n * n + 2 * n + 1 := by ring
    -- under the bounds the two uint16_t additions do not wrap
    have hs1 : (p.1 + b) % 65536 = p.1 + b := Nat.mod_eq_of_lt (by omega)
    have hs2 : (p.2 + (p.1 + b)) % 65536 = p.2 + (p.1 + b) :=
      Nat.mod_eq_of_lt (by omega)
    have hstep : fl_step p b = pure_step p b := by
      simp only [fl_step, pure_step, hs1, hs2, Prod.mk.injEq, true_and, and_true]
      omega
    have hvalid : ∀ x ∈ t, x < 256 := fun x hx => hb x (List.mem_cons_of_mem b hx)
    have hlen2 : t.length + (n + 1) ≤ 20 := by
      simp only [List.length_cons] at hlen; omega
    have h1 : (pure_step p b).1 ≤ 510 + 255 * (n + 1) := by
      simp only [pure_step]; omega
    have h2 : 2 * (pure_step p b).2 ≤ 1020 + 1020 * (n + 1) +
        255 * ((n + 1) * (n + 1)) + 255 * (n + 1) := by
      simp only [pure_step]
      omega
    obtain ⟨heq, hb1, hb2⟩ := ih (pure_step p b) (n + 1) hvalid hlen2 h1 h2
    refine ⟨?_, ?_, ?_⟩
    · simp only [fl_chunk, pureFold, List.foldl_cons] at *
      rw [hstep, heq]
    · simp only [pureFold, List.foldl_cons, List.length_cons] at *
      have : n + (t.length + 1) = n + 1 + t.length := by omega
      rw [this]; exact hb1
    · simp only [pureFold, List.foldl_cons, List.length_cons] at *
      have : n + (t.length + 1) = n + 1 + t.length := by omega
      rw [this]; exact hb2

theorem byte_step_good (q : Nat × Nat) (b : Nat) (hb : b < 256) (hq : GoodAcc q) :
    GoodAcc (fletcher16_add [b] q) ∧ CongAcc (fletcher16_add [b] q) (pure_step q b) := by
  obtain ⟨hq1, hq2, hq3, hq4⟩ := hq
  rw [fletcher16_add_singleton]
  have hs1 : (q.1 + b) % 65536 = q.1 + b := Nat.mod_eq_of_lt (by omega)
  have hs2 : (q.2 + (q.1 + b)) % 65536 = q.2 + (q.1 + b) := Nat.mod_eq_of_lt (by omega)
  have hstep : fl_step q b = pure_step q b := by
    simp only [fl_step, pure_step, hs1, hs2, Prod.mk.injEq, true_and, and_true]
    omega
  rw [hstep]
  refine ⟨⟨?_, ?_, ?_, ?_⟩, reduce2_cong _⟩
  · exact reduce_pos _ (by simp only [pure_step]; omega)
  · exact reduce_le _ (by simp only [pure_step]; omega)
  · exact reduce_pos _ (by simp only [pure_step]; omega)
  · exact reduce_le _ (by simp only [pure_step]; omega)

theorem byteFold_append (p : Nat × Nat) (l1 l2 : List Nat) :
    byteFold p (l1 ++ l2) = byteFold (byteFold p l1) l2 := by
  simp [byteFold, List.foldl_append]

theorem byteFold_good (l : List Nat) : ∀ (q : Nat × Nat), (∀ b ∈ l, b < 256) →
    GoodAcc q → GoodAcc (byteFold q l) ∧ CongAcc (byteFold q l) (pureFold q l) := by
  induction l with
  | nil => intro q _ hq; exact ⟨hq, congAcc_refl q⟩
  | cons b t ih =>
    intro q hv hq
    have hb : b < 256 := hv b (List.mem_cons_self b t)
    obtain ⟨hg, hc⟩ := byte_step_good q b hb hq
    have hrest : ∀ x ∈ t, x < 256 := fun x hx => hv x (List.mem_cons_of_mem b hx)
    obtain ⟨hg2, hc2⟩ := ih (fletcher16_add [b] q) hrest hg
    refine ⟨hg2, ?_⟩
    have step1 : CongAcc (pureFold (fletcher16_add [b] q) t) (pureFold (pure_step q b) t) :=
      pureFold_cong t _ _ hc
    simp only [byteFold, pureFold, List.foldl_cons] at *
    exact congAcc_trans hc2 step1

theorem chunk_reduced_good (t : List Nat) (p : Nat × Nat)
    (hb : ∀ b ∈ t, b < 256) (hlen : t.length ≤ 20) (hp : GoodAcc p) :
    GoodAcc (reduce2 (fl_chunk p t)) ∧ CongAcc (reduce2 (fl_chunk p t)) (pureFold p t) := by
  obtain ⟨hp1, hp2, hp3, hp4⟩ := hp
  obtain ⟨heq, hb1, hb2⟩ := fl_chunk_bounded t p 0 hb (by omega)
    (by omega) (by omega)
  have hll : t.length * t.length ≤ 400 := Nat.mul_le_mul hlen hlen
  simp only [Nat.zero_add] at hb1 hb2
  obtain ⟨hpos1, hpos2⟩ := pureFold_pos t p hp1 hp3
  rw [heq]
  refine ⟨⟨?_, ?_, ?_, ?_⟩, reduce2_cong _⟩
  · exact reduce_pos _ hpos1
  · exact reduce_le _ (by omega)
  · exact reduce_pos _ hpos2
  · exact reduce_le _ (by omega)

theorem fletcher_schedule (N : Nat) : ∀ (l : List Nat) (p q : Nat × Nat),
    l.length ≤ N → (∀ b ∈ l, b < 256) → GoodAcc p → GoodAcc q → CongAcc p q →
    GoodAcc (fletcher16_add l p) ∧ GoodAcc (byteFold q l) ∧
      CongAcc (fletcher16_add l p) (byteFold q l) := by
  induction N with
  | zero =>
    intro l p q hlen _ hp hq hpq
    have : l = [] := List.eq_nil_of_length_eq_zero (by omega)
    subst this
    rw [fletcher16_add_nil]
    exact ⟨hp, hq, hpq⟩
  | succ N ih =>
    intro l p q hlen hv hp hq hpq
    match l with
    | [] =>
      rw [fletcher16_add_nil]
      exact ⟨hp, hq, hpq⟩
    | a :: t =>
      rw [fletcher16_add_chunk (a :: t) p (List.cons_ne_nil a t)]
      simp only [List.take_succ_cons, List.drop_succ_cons]
      have hsplit : a :: t = (a :: t.take 19) ++ t.drop 19 := by
        simp [List.take_append_drop]
      have hchunkv : ∀ b ∈ a :: t.take 19, b < 256 := by
        intro b hbmem
        apply hv
        rw [hsplit]
        exact List.mem_append_left _ hbmem
      have hrestv : ∀ b ∈ t.drop 19, b < 256 := by
        intro b hbmem
        apply hv
        rw [hsplit]
        exact List.mem_append_right _ hbmem
      have hchunklen : (a :: t.take 19).length ≤ 20 := by
        simp only [List.length_cons, List.length_take]
        omega
      obtain ⟨hgp, hcp⟩ := chunk_reduced_good (a :: t.take 19) p hchunkv hchunklen hp
      obtain ⟨hgq, hcq⟩ := byteFold_good (a :: t.take 19) q hchunkv hq
      have hcross : CongAcc (reduce2 (fl_chunk p (a :: t.take 19)))
          (byteFold q (a :: t.take 19)) := by
        refine congAcc_trans hcp (congAcc_trans ?_ (congAcc_symm hcq))
        exact pureFold_cong _ _ _ hpq
      have hrestlen : (t.drop 19).length ≤ N := by
        simp only [List.length_drop]
        simp only [List.length_cons] at hlen
        omega
      obtain ⟨r1, r2, r3⟩ := ih (t.drop 19) (reduce2 (fl_chunk p (a :: t.take 19)))
        (byteFold q (a :: t.take 19)) hrestlen hrestv hgp hgq hcross
      refine ⟨r1, ?_, ?_⟩
      · rw [show byteFold q (a :: t) = byteFold (byteFold q (a :: t.take 19)) (t.drop 19) by
          conv_lhs => rw [hsplit]
          rw [byteFold_append]]
        exact r2
      · rw [show byteFold q (a :: t) = byteFold (byteFold q (a :: t.take 19)) (t.drop 19) by
          conv_lhs => rw [hsplit]
          rw [byteFold_append]]
        exact r3

theorem fletcher_fin_eq (p q : Nat × Nat) (hp : GoodAcc p) (hq : GoodAcc q)
    (h : CongAcc p q) : fletcher16_fin p = fletcher16_fin q := by
  obtain ⟨hp1, hp2, hp3, hp4⟩ := hp
  obtain ⟨hq1, hq2, hq3, hq4⟩ := hq
  obtain ⟨hc1, hc2⟩ := h
  have e1 : reduce p.1 = reduce q.1 := by
    obtain ⟨a1, a2⟩ := reduce_canon p.1 hp1 hp2
    obtain ⟨b1, b2⟩ := reduce_canon q.1 hq1 hq2
    exact canon_unique _ _ a1 a2 b1 b2
      (by rw [reduce_mod255, reduce_mod255, hc1])
  have e2 : reduce p.2 = reduce q.2 := by
    obtain ⟨a1, a2⟩ := reduce_canon p.2 hp3 hp4
    obtain ⟨b1, b2⟩ := reduce_canon q.2 hq3 hq4
    exact canon_unique _ _ a1 a2 b1 b2
      (by rw [reduce_mod255, reduce_mod255, hc2])
  simp only [fletcher16_fin, e1, e2]

/-- Initial accumulator pair: both sums start at 0xFF. -/
theorem goodAcc_init : GoodAcc (255, 255) := by
  constructor <;> simp

/-- The encoder folds the checksum over header and payload in two blocked
calls, the decoder one byte at a time; the finalized checksums agree. -/
theorem encoder_decoder_checksum (pre data : List Nat)
    (hpre : ∀ b ∈ pre, b < 256) (hdata : ∀ b ∈ data, b < 256) :
    fletcher16_fin (fletcher16_add data (fletcher16_add pre (255, 255))) =
      fletcher16_fin (byteFold (255, 255) (pre ++ data)) := by
  obtain ⟨g1, g2, c12⟩ := fletcher_schedule pre.length pre (255, 255) (255, 255)
    (le_refl _) hpre goodAcc_init goodAcc_init (congAcc_refl _)
  obtain ⟨h1, h2, h3⟩ := fletcher_schedule data.length data
    (fletcher16_add pre (255, 255)) (byteFold (255, 255) pre)
    (le_refl _) hdata g1 g2 c12
  rw [byteFold_append]
  exact fletcher_fin_eq _ _ h1 h2 h3

/-! ### Reassembling 16-bit values from bytes

The decoder reassembles `in_seqno` and `checksum` as `lo |= hi << 8`;
for `lo < 256` this is plain addition. -/

theorem lor_two_pow_add (k : Nat) : ∀ (a b : Nat), b < 2 ^ k →
    b ||| a * 2 ^ k = b + a * 2 ^ k := by
  induction k with
  | zero =>
    intro a b hb
    have : b = 0 := by omega
    subst this
    simp
  | succ k ih =>
    intro a b hb
    have hpow : 2 ^ (k + 1) = 2 * 2 ^ k := by ring
    have h2 : a * 2 ^ (k + 1) = 2 * (a * 2 ^ k) := by ring
    have hdiv : (b ||| a * 2 ^ (k + 1)) / 2 = b / 2 ||| a * 2 ^ k := by
      rw [Nat.or_div_two, h2, Nat.mul_div_cancel_left _ (by omega : 0 < 2)]
    have hbdiv : b / 2 < 2 ^ k := by omega
    have hih := ih a (b / 2) hbdiv
    have hzero : a * 2 ^ (k + 1) % 2 = 0 := by
      rw [h2]
      omega
    have hmod : (b ||| a * 2 ^ (k + 1)) % 2 = b % 2 := by
      rcases Nat.mod_two_eq_zero_or_one b with hb2 | hb2 <;>
        rcases Nat.mod_two_eq_zero_or_one (b ||| a * 2 ^ (k + 1)) with hl2 | hl2
      · omega
      · rcases (Nat.or_mod_two_eq_one).mp hl2 with h | h <;> omega
      · have : (b ||| a * 2 ^ (k + 1)) % 2 = 1 :=
          (Nat.or_mod_two_eq_one).mpr (Or.inl hb2)
        omega
      · omega
    have hrec := Nat.div_add_mod (b ||| a * 2 ^ (k + 1)) 2
    have hrecb := Nat.div_add_mod b 2
    omega

theorem lor_shift8 (lo hi : Nat) (hlo : lo < 256) :
    lo ||| hi <<< 8 = lo + hi * 256 := by
  rw [Nat.shiftLeft_eq]
  have h256 : (2 : Nat) ^ 8 = 256 := by norm_num
  rw [h256]
  exact lor_two_pow_add 8 hi lo (by omega)

theorem recompose16 (x : Nat) (hx : x < 65536) :
    (x % 256 ||| ((x >>> 8) % 256) <<< 8) % 65536 = x := by
  rw [lor_shift8 _ _ (by omega), Nat.shiftRight_eq_div_pow]
  have h256 : (2 : Nat) ^ 8 = 256 := by norm_num
  rw [h256]
  omega

/-! ## Receive state machine

Shallow embedding of `_serial_handle_byte`.  The `serial_t` structure is
mirrored field for field (the file descriptor aside); `numbytes` and the
`frame[MTU]` array are modelled together as the list `frame` of the first
`numbytes` received payload bytes, and `rexmit_numbytes`/`rexmit_frame[MTU]`
likewise as the list `rexmit_frame`. -/

/-- States of the receive state machine (`line_state_t`). -/
inductive LineState where
  | WAIT_FRAMESTART
  | WAIT_FRAMETYPE
  | WAIT_SEQNO_1
  | WAIT_SEQNO_2
  | WAIT_CHANNEL
  | IN_FRAME
  | WAIT_CHECKSUM_1
  | WAIT_CHECKSUM_2
deriving DecidableEq

/-- Events returned by `_serial_handle_byte` (`serial_event_t`). -/
inductive SerialEvent where
  | NO_EVENT
  | FRAME_READY
  | FRAME_DROPPED
deriving DecidableEq

/-- The `serial_t` structure (file descriptor omitted). -/
structure Serial where
  sum1 : Nat
  sum2 : Nat
  state : LineState
  frametype : Nat
  in_seqno : Nat
  channel : Nat
  frame : List Nat
  checksum : Nat
  in_escape : Bool
  out_seqno : Nat
  rexmit_seqno : Nat
  rexmit_channel : Nat
  rexmit_frame : List Nat
  rexmit_acked : Bool
  received_data_frame : Bool
  last_rcvd_seqno : Nat
deriving DecidableEq

/-- The `switch (serial->state)` of `_serial_handle_byte`, applied to the
(possibly unescaped) byte `c`; each non-checksum branch also folds `c`
into the running checksum (`fletcher16_add(&c, 1, …)`).  `done_char`
(clearing `in_escape`) is done by the caller `serialHandleByte`. -/
def switchPart (s : Serial) (c : Nat) : Serial × SerialEvent :=
  match s.state with
  | .WAIT_FRAMESTART =>
      -- stray byte: dropped, but still folded into the checksum
      ({ s with sum1 := (fletcher16_add [c] (s.sum1, s.sum2)).1,
                sum2 := (fletcher16_add [c] (s.sum1, s.sum2)).2 }, .NO_EVENT)
  | .WAIT_FRAMETYPE =>
      ({ s with frametype := c, state := .WAIT_SEQNO_1,
                sum1 := (fletcher16_add [c] (s.sum1, s.sum2)).1,
                sum2 := (fletcher16_add [c] (s.sum1, s.sum2)).2 }, .NO_EVENT)
  | .WAIT_SEQNO_1 =>
      ({ s with in_seqno := c, state := .WAIT_SEQNO_2,
                sum1 := (fletcher16_add [c] (s.sum1, s.sum2)).1,
                sum2 := (fletcher16_add [c] (s.sum1, s.sum2)).2 }, .NO_EVENT)
  | .WAIT_SEQNO_2 =>
      ({ s with in_seqno := (s.in_seqno ||| c <<< 8) % 65536, state := .WAIT_CHANNEL,
                sum1 := (fletcher16_add [c] (s.sum1, s.sum2)).1,
                sum2 := (fletcher16_add [c] (s.sum1, s.sum2)).2 }, .NO_EVENT)
  | .WAIT_CHANNEL =>
      ({ s with channel := c, state := .IN_FRAME, frame := [],
                sum1 := (fletcher16_add [c] (s.sum1, s.sum2)).1,
                sum2 := (fletcher16_add [c] (s.sum1, s.sum2)).2 }, .NO_EVENT)
  | .IN_FRAME =>
      if s.frame.length ≥ MTU then
        -- runaway frame: drop, no checksum update
        ({ s with state := .WAIT_FRAMESTART }, .FRAME_DROPPED)
      else
        ({ s with frame := s.frame ++ [c],
                  sum1 := (fletcher16_add [c] (s.sum1, s.sum2)).1,
                  sum2 := (fletcher16_add [c] (s.sum1, s.sum2)).2 }, .NO_EVENT)
  | .WAIT_CHECKSUM_1 =>
      -- checksum bytes are not folded into the checksum
      ({ s with checksum := c, state := .WAIT_CHECKSUM_2 }, .NO_EVENT)
  | .WAIT_CHECKSUM_2 =>
      if (s.checksum ||| c <<< 8) % 65536 ≠ fletcher16_fin (s.sum1, s.sum2) then
        ({ s with checksum := (s.checksum ||| c <<< 8) % 65536,
                  state := .WAIT_FRAMESTART }, .FRAME_DROPPED)
      else
        ({ s with checksum := (s.checksum ||| c <<< 8) % 65536,
                  state := .WAIT_FRAMESTART }, .FRAME_READY)

/-- Shallow embedding of `_serial_handle_byte`. -/
def serialHandleByte (s : Serial) (c : Nat) : Serial × SerialEvent :=
  if c = ESC_CHAR then
    ({ s with in_escape := true }, .NO_EVENT)
  else if s.in_escape then
    if c = LITERAL_ESC then
      -- literal escape: feed ESC_CHAR to the current state
      let r := switchPart { s with in_escape := false } ESC_CHAR
      ({ r.1 with in_escape := false }, r.2)
    else if c = FRAME_START then
      ({ s with sum1 := 0xFF, sum2 := 0xFF, state := .WAIT_FRAMETYPE,
                in_escape := false }, .NO_EVENT)
    else if c = FRAME_END then
      if s.state = .IN_FRAME then
        ({ s with state := .WAIT_CHECKSUM_1, in_escape := false }, .NO_EVENT)
      else
        ({ s with state := .WAIT_FRAMESTART, in_escape := false }, .FRAME_DROPPED)
    else
      -- unexpected escape sequence: corrupt frame
      ({ s with state := .WAIT_FRAMESTART, in_escape := false }, .FRAME_DROPPED)
  else
    let r := switchPart s c
    ({ r.1 with in_escape := false }, r.2)

/-- Feed a list of bytes to the receive state machine, collecting the
event emitted for each byte. -/
def runBytes : Serial → List Nat → Serial × List SerialEvent
  | s, [] => (s, [])
  | s, c :: rest =>
      let r := serialHandleByte s c
      let rr := runBytes r.1 rest
      (rr.1, r.2 :: rr.2)

theorem runBytes_nil (s : Serial) : runBytes s [] = (s, []) := rfl

theorem runBytes_cons (s : Serial) (c : Nat) (rest : List Nat) :
    runBytes s (c :: rest) =
      ((runBytes (serialHandleByte s c).1 rest).1,
       (serialHandleByte s c).2 :: (runBytes (serialHandleByte s c).1 rest).2) := rfl

theorem runBytes_append (s : Serial) (l1 l2 : List Nat) :
    runBytes s (l1 ++ l2) =
      ((runBytes (runBytes s l1).1 l2).1,
       (runBytes s l1).2 ++ (runBytes (runBytes s l1).1 l2).2) := by
  induction l1 generalizing s with
  | nil => simp [runBytes_nil]
  | cons c t ih =>
    simp only [List.cons_append, runBytes_cons, ih]

/-! ## Frame encoder (`_send_frame`) -/

/-- `_write_escaped` on a single byte: a literal `0xBE` goes out as
`ESC LITERAL_ESC`, any other byte as itself. -/
def escape1 (b : Nat) : List Nat :=
  if b = ESC_CHAR then [ESC_CHAR, LITERAL_ESC] else [b]

/-- `_write_escaped` over a byte list. -/
def escapeList : List Nat → List Nat
  | [] => []
  | b :: t => escape1 b ++ escapeList t

theorem escapeList_nil : escapeList [] = [] := rfl

theorem escapeList_cons (b : Nat) (t : List Nat) :
    escapeList (b :: t) = escape1 b ++ escapeList t := rfl

/-- The preamble buffer of `_send_frame`: frame type, seqno
little-endian, channel. -/
def framePreamble (ft seq ch : Nat) : List Nat :=
  [ft, seq % 256, (seq >>> 8) % 256, ch]

/-- The finalized checksum `_send_frame` computes over preamble and payload. -/
def frameChecksum (data : List Nat) (ch seq ft : Nat) : Nat :=
  fletcher16_fin (fletcher16_add data (fletcher16_add (framePreamble ft seq ch) (0xFF, 0xFF)))

/-- The byte sequence `_send_frame(serial, data, thislen, channel, seqno,
frame_type)` writes to the serial line: start delimiter, escaped preamble
and payload, end delimiter, escaped little-endian checksum. -/
def sendFrameBytes (data : List Nat) (ch seq ft : Nat) : List Nat :=
  [ESC_CHAR, FRAME_START] ++
  escapeList (framePreamble ft seq ch) ++
  escapeList data ++
  [ESC_CHAR, FRAME_END] ++
  escapeList [frameChecksum data ch seq ft % 256,
              (frameChecksum data ch seq ft >>> 8) % 256]

/-! ## Decoding an encoded frame -/

theorem byteFold_cons (p : Nat × Nat) (b : Nat) (t : List Nat) :
    byteFold p (b :: t) = byteFold (fletcher16_add [b] p) t := rfl

theorem switchPart_escape_irrel (s : Serial) (e : Bool) (c : Nat) :
    switchPart { s with in_escape := e } c =
      ({ (switchPart s c).1 with in_escape := e }, (switchPart s c).2) := by
  cases hs : s.state <;>
    simp only [switchPart, hs] <;>
    first
      | rfl
      | (split <;> rfl)

/-- Processing the two delimiter bytes `ESC FRAME_START` resets the
checksum accumulators and enters `WAIT_FRAMETYPE`, from any state. -/
theorem run_start (s : Serial) :
    runBytes s [ESC_CHAR, FRAME_START] =
      ({ s with sum1 := 0xFF, sum2 := 0xFF, state := .WAIT_FRAMETYPE,
                in_escape := false },
       [.NO_EVENT, .NO_EVENT]) := by
  simp [runBytes, serialHandleByte, ESC_CHAR, FRAME_START, LITERAL_ESC]

/-- Processing the escaped encoding of one byte `b` in a non-escape state
performs exactly the `switch` transition on the logical byte `b`. -/
theorem run_escape1 (s : Serial) (b : Nat) (hesc : s.in_escape = false) :
    runBytes s (escape1 b) =
      ({ (switchPart s b).1 with in_escape := false },
       if b = ESC_CHAR then [SerialEvent.NO_EVENT, (switchPart s b).2]
       else [(switchPart s b).2]) := by
  by_cases hb : b = ESC_CHAR
  · subst hb
    have h0 : ({ { s with in_escape := true } with in_escape := false } : Serial) = s := by
      cases s
      simp_all
    simp only [escape1, if_pos rfl, runBytes, serialHandleByte]
    simp only [ESC_CHAR, LITERAL_ESC, FRAME_START, FRAME_END]
    norm_num
    rw [h0]
    simp
  · simp only [escape1, if_neg hb, runBytes, serialHandleByte, hesc]
    simp only [if_neg hb, Bool.false_eq_true, if_false]

theorem runBytes_append_split {s s1 s2 : Serial} {l1 l2 : List Nat}
    {e1 e2 : List SerialEvent}
    (h1 : runBytes s l1 = (s1, e1)) (h2 : runBytes s1 l2 = (s2, e2)) :
    runBytes s (l1 ++ l2) = (s2, e1 ++ e2) := by
  rw [runBytes_append]
  simp only [h1, h2]

theorem switchPart_frametype (s : Serial) (c : Nat) (h : s.state = .WAIT_FRAMETYPE) :
    switchPart s c =
      ({ s with frametype := c, state := .WAIT_SEQNO_1,
                sum1 := (fletcher16_add [c] (s.sum1, s.sum2)).1,
                sum2 := (fletcher16_add [c] (s.sum1, s.sum2)).2 }, .NO_EVENT) := by
  simp only [switchPart, h]

theorem switchPart_seqno1 (s : Serial) (c : Nat) (h : s.state = .WAIT_SEQNO_1) :
    switchPart s c =
      ({ s with in_seqno := c, state := .WAIT_SEQNO_2,
                sum1 := (fletcher16_add [c] (s.sum1, s.sum2)).1,
                sum2 := (fletcher16_add [c] (s.sum1, s.sum2)).2 }, .NO_EVENT) := by
  simp only [switchPart, h]

theorem switchPart_seqno2 (s : Serial) (c : Nat) (h : s.state = .WAIT_SEQNO_2) :
    switchPart s c =
      ({ s with in_seqno := (s.in_seqno ||| c <<< 8) % 65536, state := .WAIT_CHANNEL,
                sum1 := (fletcher16_add [c] (s.sum1, s.sum2)).1,
                sum2 := (fletcher16_add [c] (s.sum1, s.sum2)).2 }, .NO_EVENT) := by
  simp only [switchPart, h]

theorem switchPart_channel (s : Serial) (c : Nat) (h : s.state = .WAIT_CHANNEL) :
    switchPart s c =
      ({ s with channel := c, state := .IN_FRAME, frame := [],
                sum1 := (fletcher16_add [c] (s.sum1, s.sum2)).1,
                sum2 := (fletcher16_add [c] (s.sum1, s.sum2)).2 }, .NO_EVENT) := by
  simp only [switchPart, h]

theorem switchPart_in_frame (s : Serial) (c : Nat) (h : s.state = .IN_FRAME)
    (hlen : s.frame.length < MTU) :
    switchPart s c =
      ({ s with frame := s.frame ++ [c],
                sum1 := (fletcher16_add [c] (s.sum1, s.sum2)).1,
                sum2 := (fletcher16_add [c] (s.sum1, s.sum2)).2 }, .NO_EVENT) := by
  simp only [switchPart, h]
  rw [if_neg (by omega)]

theorem switchPart_cksum1 (s : Serial) (c : Nat) (h : s.state = .WAIT_CHECKSUM_1) :
    switchPart s c =
      ({ s with checksum := c, state := .WAIT_CHECKSUM_2 }, .NO_EVENT) := by
  simp only [switchPart, h]

theorem switchPart_cksum2_ready (s : Serial) (c : Nat) (h : s.state = .WAIT_CHECKSUM_2)
    (hck : (s.checksum ||| c <<< 8) % 65536 = fletcher16_fin (s.sum1, s.sum2)) :
    switchPart s c =
      ({ s with checksum := (s.checksum ||| c <<< 8) % 65536,
                state := .WAIT_FRAMESTART }, .FRAME_READY) := by
  simp only [switchPart, h]
  rw [if_neg (by simp [hck])]

/-- Consuming one escaped header byte in `WAIT_FRAMETYPE`. -/
theorem run_hdr_ft (s : Serial) (b : Nat) (hesc : s.in_escape = false)
    (hstate : s.state = .WAIT_FRAMETYPE) :
    runBytes s (escape1 b) =
      ({ s with frametype := b, state := .WAIT_SEQNO_1,
                sum1 := (fletcher16_add [b] (s.sum1, s.sum2)).1,
                sum2 := (fletcher16_add [b] (s.sum1, s.sum2)).2, in_escape := false },
       List.replicate (escape1 b).length SerialEvent.NO_EVENT) := by
  rw [run_escape1 s b hesc, switchPart_frametype s b hstate]
  by_cases hb : b = ESC_CHAR <;> simp [escape1, hb]

/-- Consuming one escaped header byte in `WAIT_SEQNO_1`. -/
theorem run_hdr_s1 (s : Serial) (b : Nat) (hesc : s.in_escape = false)
    (hstate : s.state = .WAIT_SEQNO_1) :
    runBytes s (escape1 b) =
      ({ s with in_seqno := b, state := .WAIT_SEQNO_2,
                sum1 := (fletcher16_add [b] (s.sum1, s.sum2)).1,
                sum2 := (fletcher16_add [b] (s.sum1, s.sum2)).2, in_escape := false },
       List.replicate (escape1 b).length SerialEvent.NO_EVENT) := by
  rw [run_escape1 s b hesc, switchPart_seqno1 s b hstate]
  by_cases hb : b = ESC_CHAR <;> simp [escape1, hb]

/-- Consuming one escaped header byte in `WAIT_SEQNO_2`. -/
theorem run_hdr_s2 (s : Serial) (b : Nat) (hesc : s.in_escape = false)
    (hstate : s.state = .WAIT_SEQNO_2) :
    runBytes s (escape1 b) =
      ({ s with in_seqno := (s.in_seqno ||| b <<< 8) % 65536, state := .WAIT_CHANNEL,
                sum1 := (fletcher16_add [b] (s.sum1, s.sum2)).1,
                sum2 := (fletcher16_add [b] (s.sum1, s.sum2)).2, in_escape := false },
       List.replicate (escape1 b).length SerialEvent.NO_EVENT) := by
  rw [run_escape1 s b hesc, switchPart_seqno2 s b hstate]
  by_cases hb : b = ESC_CHAR <;> simp [escape1, hb]

/-- Consuming one escaped header byte in `WAIT_CHANNEL`. -/
theorem run_hdr_ch (s : Serial) (b : Nat) (hesc : s.in_escape = false)
    (hstate : s.state = .WAIT_CHANNEL) :
    runBytes s (escape1 b) =
      ({ s with channel := b, state := .IN_FRAME, frame := [],
                sum1 := (fletcher16_add [b] (s.sum1, s.sum2)).1,
                sum2 := (fletcher16_add [b] (s.sum1, s.sum2)).2, in_escape := false },
       List.replicate (escape1 b).length SerialEvent.NO_EVENT) := by
  rw [run_escape1 s b hesc, switchPart_channel s b hstate]
  by_cases hb : b = ESC_CHAR <;> simp [escape1, hb]

/-- Consuming the escaped encoding of a payload while in `IN_FRAME`: every
byte is appended to the frame buffer and folded into the checksum, with no
event, as long as the buffer stays within the MTU. -/
theorem run_payload (data : List Nat) : ∀ (s : Serial), s.in_escape = false →
    s.state = .IN_FRAME → s.frame.length + data.length ≤ MTU →
    runBytes s (escapeList data) =
      ({ s with frame := s.frame ++ data,
                sum1 := (byteFold (s.sum1, s.sum2) data).1,
                sum2 := (byteFold (s.sum1, s.sum2) data).2 },
       List.replicate (escapeList data).length SerialEvent.NO_EVENT) := by
  induction data with
  | nil =>
    intro s hesc hstate hlen
    simp only [escapeList_nil, runBytes_nil, byteFold, List.foldl_nil,
      List.append_nil, List.length_nil, List.replicate_zero]
  | cons b t ih =>
    intro s hesc hstate hlen
    have hflen : s.frame.length < MTU := by
      simp only [List.length_cons] at hlen
      omega
    have e1 : runBytes s (escape1 b) =
        ({ s with frame := s.frame ++ [b],
                  sum1 := (fletcher16_add [b] (s.sum1, s.sum2)).1,
                  sum2 := (fletcher16_add [b] (s.sum1, s.sum2)).2, in_escape := false },
         List.replicate (escape1 b).length SerialEvent.NO_EVENT) := by
      rw [run_escape1 s b hesc, switchPart_in_frame s b hstate hflen]
      by_cases hb : b = ESC_CHAR <;> simp [escape1, hb]
    have e2 := ih
      ({ s with frame := s.frame ++ [b],
                sum1 := (fletcher16_add [b] (s.sum1, s.sum2)).1,
                sum2 := (fletcher16_add [b] (s.sum1, s.sum2)).2, in_escape := false })
      rfl hstate (by simp only [List.length_append, List.length_cons,
                    List.length_nil] at *; omega)
    rw [escapeList_cons, runBytes_append_split e1 e2]
    simp only [List.length_append, List.replicate_add, byteFold_cons,
      List.append_assoc, List.singleton_append, Prod.mk.eta]
    simp [byteFold_cons, hesc]

/-- Consuming the two delimiter bytes `ESC FRAME_END` while in `IN_FRAME`. -/
theorem run_end (s : Serial) (hstate : s.state = .IN_FRAME) :
    runBytes s [ESC_CHAR, FRAME_END] =
      ({ s with state := .WAIT_CHECKSUM_1, in_escape := false },
       List.replicate 2 SerialEvent.NO_EVENT) := by
  simp [runBytes, serialHandleByte, ESC_CHAR, FRAME_END, LITERAL_ESC, FRAME_START, hstate]

/-- Consuming the two escaped checksum bytes when they match the running
checksum: the frame is delivered with a single `FRAME_READY`. -/
theorem run_checksum (s : Serial) (lo hi : Nat) (hlo : lo < 256) (hhi : hi < 256)
    (hesc : s.in_escape = false) (hstate : s.state = .WAIT_CHECKSUM_1)
    (hmatch : lo + hi * 256 = fletcher16_fin (s.sum1, s.sum2)) :
    ∃ k, runBytes s (escapeList [lo, hi]) =
      ({ s with checksum := lo + hi * 256, state := .WAIT_FRAMESTART,
                in_escape := false },
       List.replicate k SerialEvent.NO_EVENT ++ [SerialEvent.FRAME_READY]) := by
  have e1 : runBytes s (escape1 lo) =
      ({ s with checksum := lo, state := .WAIT_CHECKSUM_2, in_escape := false },
       List.replicate (escape1 lo).length SerialEvent.NO_EVENT) := by
    rw [run_escape1 s lo hesc, switchPart_cksum1 s lo hstate]
    by_cases hb : lo = ESC_CHAR <;> simp [escape1, hb]
  have hck2 : ((lo : Nat) ||| hi <<< 8) % 65536 = lo + hi * 256 := by
    rw [lor_shift8 lo hi hlo]
    exact Nat.mod_eq_of_lt (by omega)
  have hck : ((lo : Nat) ||| hi <<< 8) % 65536 = fletcher16_fin (s.sum1, s.sum2) := by
    rw [hck2]
    exact hmatch
  have e2 : runBytes
      ({ s with checksum := lo, state := .WAIT_CHECKSUM_2, in_escape := false })
      (escape1 hi) =
      ({ s with checksum := lo + hi * 256, state := .WAIT_FRAMESTART,
                in_escape := false },
       if hi = ESC_CHAR then [SerialEvent.NO_EVENT, SerialEvent.FRAME_READY]
       else [SerialEvent.FRAME_READY]) := by
    rw [run_escape1 _ hi rfl, switchPart_cksum2_ready _ hi rfl hck]
    simp [hck2]
  have hsplit := runBytes_append_split e1 e2
  have hrep : ∀ (k : Nat) (l : List SerialEvent),
      List.replicate k SerialEvent.NO_EVENT ++ (SerialEvent.NO_EVENT :: l) =
        SerialEvent.NO_EVENT :: (List.replicate k SerialEvent.NO_EVENT ++ l) := by
    intro k l
    induction k with
    | zero => simp
    | succ k ih => simp_all [List.replicate_succ]
  by_cases hb : hi = ESC_CHAR
  · refine ⟨(escape1 lo).length + 1, ?_⟩
    rw [show escapeList [lo, hi] = escape1 lo ++ escape1 hi by
      simp [escapeList_cons, escapeList_nil]]
    rw [hsplit]
    simp [hb, hrep, List.replicate_succ]
  · refine ⟨(escape1 lo).length, ?_⟩
    rw [show escapeList [lo, hi] = escape1 lo ++ escape1 hi by
      simp [escapeList_cons, escapeList_nil]]
    rw [hsplit]
    simp [hb]

/-- Consuming the escaped four-byte header from `WAIT_FRAMETYPE` fills in
frame type, sequence number (little-endian) and channel. -/
theorem run_header (s : Serial) (ft lo hi ch : Nat) (hesc : s.in_escape = false)
    (hstate : s.state = .WAIT_FRAMETYPE) (hlo : lo < 256) (hhi : hi < 256) :
    runBytes s (escapeList [ft, lo, hi, ch]) =
      ({ s with frametype := ft, in_seqno := lo + hi * 256, channel := ch,
                frame := [], state := .IN_FRAME, in_escape := false,
                sum1 := (byteFold (s.sum1, s.sum2) [ft, lo, hi, ch]).1,
                sum2 := (byteFold (s.sum1, s.sum2) [ft, lo, hi, ch]).2 },
       List.replicate (escapeList [ft, lo, hi, ch]).length SerialEvent.NO_EVENT) := by
  have hck2 : ((lo : Nat) ||| hi <<< 8) % 65536 = lo + hi * 256 := by
    rw [lor_shift8 lo hi hlo]
    exact Nat.mod_eq_of_lt (by omega)
  have h12 := runBytes_append_split (run_hdr_ft s ft hesc hstate)
    (run_hdr_s1 _ lo rfl rfl)
  have h123 := runBytes_append_split h12 (run_hdr_s2 _ hi rfl rfl)
  have h1234 := runBytes_append_split h123 (run_hdr_ch _ ch rfl rfl)
  rw [show escapeList [ft, lo, hi, ch]
        = ((escape1 ft ++ escape1 lo) ++ escape1 hi) ++ escape1 ch by
      simp [escapeList, List.append_assoc]]
  rw [h1234]
  rw [Prod.mk.injEq]
  have hra : ∀ (a b : Nat),
      List.replicate a SerialEvent.NO_EVENT ++ List.replicate b SerialEvent.NO_EVENT
        = List.replicate (a + b) SerialEvent.NO_EVENT :=
    fun a b => (List.replicate_add a b SerialEvent.NO_EVENT).symm
  constructor
  · rw [← hck2]
    rfl
  · rw [hra, hra, hra]
    congr 1
    simp only [escapeList, List.length_append, List.length_nil]

theorem exists_rep_ready {l1 l2 : List SerialEvent} {k : Nat}
    (h1 : ∀ e ∈ l1, e = SerialEvent.NO_EVENT)
    (h2 : l2 = List.replicate k SerialEvent.NO_EVENT ++ [SerialEvent.FRAME_READY]) :
    ∃ m, l1 ++ l2 =
      List.replicate m SerialEvent.NO_EVENT ++ [SerialEvent.FRAME_READY] := by
  refine ⟨l1.length + k, ?_⟩
  rw [List.eq_replicate_of_mem h1, h2, List.replicate_add, List.append_assoc]
  simp

/-- Decoding an encoded frame: feeding the byte sequence produced by
`_send_frame` to the receive state machine, started in any state, ends in
`WAIT_FRAMESTART` with the frame type, sequence number, channel and payload
recovered exactly, emitting `NO_EVENT` for every byte except the last,
which emits `FRAME_READY`. -/
theorem runBytes_sendFrame (s : Serial) (data : List Nat) (ch seq ft : Nat)
    (hft : ft < 256) (hseq : seq < 65536) (hch : ch < 256)
    (hdata : ∀ b ∈ data, b < 256) (hlen : data.length ≤ MTU) :
    ∃ k, runBytes s (sendFrameBytes data ch seq ft) =
      ({ s with frametype := ft, in_seqno := seq, channel := ch, frame := data,
                state := .WAIT_FRAMESTART, in_escape := false,
                sum1 := (byteFold (255, 255)
                  ([ft, seq % 256, (seq >>> 8) % 256, ch] ++ data)).1,
                sum2 := (byteFold (255, 255)
                  ([ft, seq % 256, (seq >>> 8) % 256, ch] ++ data)).2,
                checksum := frameChecksum data ch seq ft },
       List.replicate k SerialEvent.NO_EVENT ++ [SerialEvent.FRAME_READY]) := by
  have hlo : seq % 256 < 256 := by omega
  have hhi : (seq >>> 8) % 256 < 256 := by omega
  have h256 : (2 : Nat) ^ 8 = 256 := by norm_num
  have hseqrec : seq % 256 + (seq >>> 8) % 256 * 256 = seq := by
    rw [Nat.shiftRight_eq_div_pow, h256]
    omega
  set cks := frameChecksum data ch seq ft with hcks
  have hckslt : cks < 65536 := by
    rw [hcks]
    unfold frameChecksum fletcher16_fin
    exact Nat.mod_lt _ (by norm_num)
  have hcksrec : cks % 256 + (cks >>> 8) % 256 * 256 = cks := by
    rw [Nat.shiftRight_eq_div_pow, h256]
    omega
  have hprev : ∀ b ∈ [ft, seq % 256, (seq >>> 8) % 256, ch], b < 256 := by
    intro b hb
    simp only [List.mem_cons, List.not_mem_nil, or_false] at hb
    rcases hb with rfl | rfl | rfl | rfl <;> omega
  have hA := run_start s
  have hP : runBytes
      ({ s with sum1 := 0xFF, sum2 := 0xFF, state := .WAIT_FRAMETYPE,
                in_escape := false })
      (escapeList [ft, seq % 256, (seq >>> 8) % 256, ch]) =
      ({ s with frametype := ft,
                in_seqno := seq % 256 + (seq >>> 8) % 256 * 256, channel := ch,
                frame := [], state := .IN_FRAME, in_escape := false,
                sum1 := (byteFold (255, 255)
                  [ft, seq % 256, (seq >>> 8) % 256, ch]).1,
                sum2 := (byteFold (255, 255)
                  [ft, seq % 256, (seq >>> 8) % 256, ch]).2 },
       List.replicate (escapeList [ft, seq % 256, (seq >>> 8) % 256, ch]).length
         SerialEvent.NO_EVENT) :=
    run_header _ ft (seq % 256) ((seq >>> 8) % 256) ch rfl rfl hlo hhi
  have hD : runBytes
      ({ s with frametype := ft,
                in_seqno := seq % 256 + (seq >>> 8) % 256 * 256, channel := ch,
                frame := [], state := .IN_FRAME, in_escape := false,
                sum1 := (byteFold (255, 255)
                  [ft, seq % 256, (seq >>> 8) % 256, ch]).1,
                sum2 := (byteFold (255, 255)
                  [ft, seq % 256, (seq >>> 8) % 256, ch]).2 })
      (escapeList data) =
      ({ s with frametype := ft,
                in_seqno := seq % 256 + (seq >>> 8) % 256 * 256, channel := ch,
                frame := data, state := .IN_FRAME, in_escape := false,
                sum1 := (byteFold (255, 255)
                  ([ft, seq % 256, (seq >>> 8) % 256, ch] ++ data)).1,
                sum2 := (byteFold (255, 255)
                  ([ft, seq % 256, (seq >>> 8) % 256, ch] ++ data)).2 },
       List.replicate (escapeList data).length SerialEvent.NO_EVENT) :=
    run_payload data _ rfl rfl (by simpa using hlen)
  have hE : runBytes
      ({ s with frametype := ft,
                in_seqno := seq % 256 + (seq >>> 8) % 256 * 256, channel := ch,
                frame := data, state := .IN_FRAME, in_escape := false,
                sum1 := (byteFold (255, 255)
                  ([ft, seq % 256, (seq >>> 8) % 256, ch] ++ data)).1,
                sum2 := (byteFold (255, 255)
                  ([ft, seq % 256, (seq >>> 8) % 256, ch] ++ data)).2 })
      [ESC_CHAR, FRAME_END] =
      ({ s with frametype := ft,
                in_seqno := seq % 256 + (seq >>> 8) % 256 * 256, channel := ch,
                frame := data, state := .WAIT_CHECKSUM_1, in_escape := false,
                sum1 := (byteFold (255, 255)
                  ([ft, seq % 256, (seq >>> 8) % 256, ch] ++ data)).1,
                sum2 := (byteFold (255, 255)
                  ([ft, seq % 256, (seq >>> 8) % 256, ch] ++ data)).2 },
       List.replicate 2 SerialEvent.NO_EVENT) :=
    run_end _ rfl
  have hmatch : cks % 256 + (cks >>> 8) % 256 * 256 =
      fletcher16_fin (byteFold (255, 255)
        ([ft, seq % 256, (seq >>> 8) % 256, ch] ++ data)) := by
    rw [hcksrec, hcks]
    exact encoder_decoder_checksum [ft, seq % 256, (seq >>> 8) % 256, ch] data
      hprev hdata
  obtain ⟨k, hC⟩ := run_checksum
    ({ s with frametype := ft,
              in_seqno := seq % 256 + (seq >>> 8) % 256 * 256, channel := ch,
              frame := data, state := .WAIT_CHECKSUM_1, in_escape := false,
              sum1 := (byteFold (255, 255)
                ([ft, seq % 256, (seq >>> 8) % 256, ch] ++ data)).1,
              sum2 := (byteFold (255, 255)
                ([ft, seq % 256, (seq >>> 8) % 256, ch] ++ data)).2 })
    (cks % 256) ((cks >>> 8) % 256) (by omega) (by omega) rfl rfl hmatch
  have h1 := runBytes_append_split hA hP
  have h2 := runBytes_append_split h1 hD
  have h3 := runBytes_append_split h2 hE
  have h4 := runBytes_append_split h3 hC
  have hpre_none : ∀ e ∈ ((([SerialEvent.NO_EVENT, SerialEvent.NO_EVENT] ++
      List.replicate (escapeList [ft, seq % 256, (seq >>> 8) % 256, ch]).length
        SerialEvent.NO_EVENT) ++
      List.replicate (escapeList data).length SerialEvent.NO_EVENT) ++
      List.replicate 2 SerialEvent.NO_EVENT), e = SerialEvent.NO_EVENT := by
    intro e he
    simp only [List.mem_append, List.mem_replicate, List.mem_cons,
      List.not_mem_nil, or_false] at he
    tauto
  obtain ⟨m, hm⟩ := exists_rep_ready hpre_none rfl
  refine ⟨m, ?_⟩
  simp only [sendFrameBytes, framePreamble, ← hcks]
  rw [h4, hm]
  rw [Prod.mk.injEq]
  refine ⟨?_, rfl⟩
  rw [hseqrec, hcksrec]

/-- Reserved link-control channel (`RESERVED_CHANNEL`). -/
def RESERVED_CHANNEL : Nat := 0

/-- Channel bridged to stdin/stdout (`STDIN_CHANNEL`). -/
def STDIN_CHANNEL : Nat := 1

/-- Built-in command channel (`CMD_CHANNEL`). -/
def CMD_CHANNEL : Nat := 2

/-- Channel bridged to the tunnel interface (`TUNTAP_CHANNEL`). -/
def TUNTAP_CHANNEL : Nat := 3

/-- Number of channels (`NUM_CHANNELS`). -/
def NUM_CHANNELS : Nat := 256

/-- Command opcode `CMD_GET_MCU_IP_ADDR`. -/
def CMD_GET_MCU_IP_ADDR : Nat := 0x01

/-- Reply opcode `RSP_GET_MCU_IP_ADDR`. -/
def RSP_GET_MCU_IP_ADDR : Nat := 0x11

/-! ## Link engine and event dispatcher

Shallow embedding of the link-layer functions (`rethos_send_data_frame`,
`rethos_rexmit_data_frame`, `rethos_send_ack_frame`,
`rethos_send_nack_frame`), the timers, the `FRAME_READY`/`FRAME_DROPPED`
handling in `main`, and the serial byte loop.  Writes to the serial line
and to local consumers are modelled as an `Action` trace; `_send_frame`
itself emits the byte sequence `sendFrameBytes` proven above. -/

/-- `struct timespec` (seconds, nanoseconds). -/
structure Timespec where
  tv_sec : Nat
  tv_nsec : Nat
deriving DecidableEq

/-- `struct itimerspec`: interval, then initial expiration, in that order
(the order used by the initializers in the source). -/
structure Itimerspec where
  it_interval : Timespec
  it_value : Timespec
deriving DecidableEq

/-- `rexmit_timer_spec = { REXMIT_TIMEOUT, REXMIT_TIMEOUT }` with
`REXMIT_TIMEOUT = {0, 100000000L}` (100 ms): both the interval and the
initial expiration are 100 ms. -/
def rexmit_timer_spec : Itimerspec :=
  ⟨⟨0, 100000000⟩, ⟨0, 100000000⟩⟩

/-- `cancel_timer_spec = { {0, 0L}, {0, 0L} }`. -/
def cancel_timer_spec : Itimerspec :=
  ⟨⟨0, 0⟩, ⟨0, 0⟩⟩

/-- POSIX timer contract (`timer_settime`): a timer armed with a zero
`it_interval` fires at most once per arming (one-shot); a nonzero
`it_interval` makes it fire periodically until it is disarmed. -/
def timerOneShot (sp : Itimerspec) : Prop := sp.it_interval = ⟨0, 0⟩

/-- Observable effects of the dispatcher. `sendSerial ft seq ch payload`
is a `_send_frame` call (the wire bytes are `sendFrameBytes payload ch seq
ft`); `setRexmitTimer` is a `timer_settime(rexmit_timer, …)` call. -/
inductive Action where
  | sendSerial (ft seq ch : Nat) (payload : List Nat)
  | setRexmitTimer (sp : Itimerspec)
  | writeStdout (payload : List Nat)
  | writeTun (payload : List Nat)
  | writeClient (ch : Nat) (payload : List Nat)
deriving DecidableEq

/-- The global statistics counters (`global_stats_t`), `uint64_t` each. -/
structure GlobalStats where
  serial_received : Nat
  domain_forwarded : Nat
  domain_received : Nat
  serial_forwarded : Nat
  lost_frames : Nat
  bad_frames : Nat
  drop_notconnected : Nat
deriving DecidableEq

/-- The per-channel statistics counters (`channel_stats_t`). -/
structure ChannelStats where
  serial_received : Nat
  domain_forwarded : Nat
  drop_notconnected : Nat
  domain_received : Nat
  serial_forwarded : Nat
deriving DecidableEq

/-- `uint64_t` increment. -/
def inc64 (n : Nat) : Nat := (n + 1) % 2 ^ 64

/-- The `stats.global.lost_frames += (serial.in_seqno - serial.last_rcvd_seqno - 1)`
update: the subtraction is computed in `int` (both operands are promoted
`uint16_t` values) and the possibly negative result is converted to
`uint64_t` for the addition, i.e. taken modulo `2^64`. -/
def lostUpdate (lost last inSeq : Nat) : Nat :=
  (((lost : Int) + inSeq - last - 1) % (2 ^ 64 : Int)).toNat

/-- Dispatcher state: the `serial_t`, the statistics, which channels have a
connected client (`domain_sockets[i].client_socket != -1`), whether the
tunnel descriptor exists (`tun_fd != -1`) and the `have_stdin` flag. -/
structure Daemon where
  serial : Serial
  global : GlobalStats
  channel : Nat → ChannelStats
  clients : Nat → Bool
  tunExists : Bool
  haveStdin : Bool

/-- `rethos_send_data_frame`: pre-increment the 16-bit outbound counter,
store seqno, channel and payload in the retransmit slot, mark it unacked,
emit the frame and arm the retransmit timer. -/
def rethos_send_data_frame (s : Serial) (data : List Nat) (ch : Nat) :
    Serial × List Action :=
  let seqno := (s.out_seqno + 1) % 65536
  ({ s with out_seqno := seqno, rexmit_seqno := seqno, rexmit_channel := ch,
            rexmit_frame := data, rexmit_acked := false },
   [.sendSerial TYPE_DATA seqno ch data, .setRexmitTimer rexmit_timer_spec])

/-- `rethos_rexmit_data_frame`: re-emit the stored frame unchanged; no
state change, no counter increment, no timer operation. -/
def rethos_rexmit_data_frame (s : Serial) : List Action :=
  [.sendSerial TYPE_DATA s.rexmit_seqno s.rexmit_channel s.rexmit_frame]

/-- `rethos_send_ack_frame`: zero-payload ACK on channel 0. -/
def rethos_send_ack_frame (seqno : Nat) : List Action :=
  [.sendSerial TYPE_ACK seqno RESERVED_CHANNEL []]

/-- `rethos_send_nack_frame`: zero-payload NACK on channel 0, seqno 0. -/
def rethos_send_nack_frame : List Action :=
  [.sendSerial TYPE_NACK 0 RESERVED_CHANNEL []]

/-- The `rexmit_fired` tick handler in the main loop: if the retransmit
slot is unacked, resend the stored frame. -/
def rexmitTimerFire (s : Serial) : List Action :=
  if s.rexmit_acked then [] else rethos_rexmit_data_frame s

/-- Actions produced by `n` consecutive REXMIT timer firings with no
intervening serial input or sends (the slot state does not change). -/
def rexmitFires (s : Serial) (n : Nat) : List Action :=
  (List.replicate n (rexmitTimerFire s)).flatten

/-- Update the statistics slot of channel `i`. -/
def bumpChannel (f : ChannelStats → ChannelStats) (cs : Nat → ChannelStats)
    (i : Nat) : Nat → ChannelStats :=
  fun j => if j = i then f (cs j) else cs j

/-- The reply frame `mcu_addr_rsp_frame` is declared as
`struct { char opcode; struct in6_addr mcu_addr; }` without packing: on the
target ABI `struct in6_addr` is 4-byte aligned, so the struct has three
padding bytes after `opcode` and `sizeof(mcu_addr_rsp_frame)` is 20.  The
payload sent is therefore the opcode byte, three (uninitialized) padding
bytes `p1 p2 p3`, then the 16 address bytes. -/
def mcu_addr_rsp_frame (p1 p2 p3 : Nat) (addr : List Nat) : List Nat :=
  RSP_GET_MCU_IP_ADDR :: p1 :: p2 :: p3 :: addr

/-- The data-frame part of the `FRAME_READY` handling (channel at least 1),
after the ACK of the received seqno has been emitted: duplicate
suppression, loss accounting, empty-frame drop, built-in consumers and
local client delivery.  Returns the updated state, the actions following
the ACK, and whether `goto serial_done` is executed. -/
def handleFrameReadyData (rsp : List Nat) (d : Daemon) : Daemon × List Action × Bool :=
  if d.serial.received_data_frame ∧ d.serial.in_seqno = d.serial.last_rcvd_seqno then
    (d, [], true)
  else
    let newLost :=
      lostUpdate d.global.lost_frames d.serial.last_rcvd_seqno d.serial.in_seqno
    let d := { d with
      serial := { d.serial with
                  received_data_frame := true,
                  last_rcvd_seqno := d.serial.in_seqno },
      global := { d.global with lost_frames := newLost } }
    if d.serial.frame.length = 0 then
      (d, [], true)
    else
      let b :=
        if d.serial.channel = STDIN_CHANNEL then
          (d, [Action.writeStdout d.serial.frame])
        else if d.serial.channel = TUNTAP_CHANNEL then
          if d.tunExists then (d, [Action.writeTun d.serial.frame]) else (d, [])
        else if d.serial.channel = CMD_CHANNEL then
          if d.serial.frame.length = 0 then (d, [])
          else if d.serial.frame.headD 0 = CMD_GET_MCU_IP_ADDR then
            let r := rethos_send_data_frame d.serial rsp CMD_CHANNEL
            ({ d with serial := r.1 }, r.2)
          else (d, [])
        else (d, [])
      let d := b.1
      if d.clients d.serial.channel then
        ({ d with
           channel := bumpChannel
             (fun c => { c with domain_forwarded := inc64 c.domain_forwarded })
             d.channel d.serial.channel,
           global := { d.global with
             domain_forwarded := inc64 d.global.domain_forwarded } },
         b.2 ++ [Action.writeClient d.serial.channel d.serial.frame],
         false)
      else
        let d := { d with
          channel := bumpChannel
            (fun c => { c with drop_notconnected := inc64 c.drop_notconnected })
            d.channel d.serial.channel }
        if d.serial.channel ≠ STDIN_CHANNEL ∧ d.serial.channel ≠ TUNTAP_CHANNEL then
          ({ d with global := { d.global with
              drop_notconnected := inc64 d.global.drop_notconnected } },
           b.2, false)
        else
          (d, b.2, false)

/-- The `FRAME_READY` handling of the dispatcher (`main`): statistics,
control-channel ACK/NACK processing, then — for data channels — the ACK of
the received seqno followed by the actions of `handleFrameReadyData`.  The
returned `Bool` is true when the code runs `goto serial_done`, abandoning
the rest of the current serial read block. -/
def handleFrameReady (rsp : List Nat) (d : Daemon) : Daemon × List Action × Bool :=
  if d.serial.channel ≥ NUM_CHANNELS then (d, [], false)
  else
    let d := { d with
      channel := bumpChannel
        (fun c => { c with serial_received := inc64 c.serial_received })
        d.channel d.serial.channel,
      global := { d.global with serial_received := inc64 d.global.serial_received } }
    if d.serial.channel = RESERVED_CHANNEL then
      if d.serial.frametype = TYPE_NACK then
        if d.serial.rexmit_acked then
          if d.serial.received_data_frame then
            (d, rethos_send_ack_frame d.serial.last_rcvd_seqno, true)
          else
            (d, [], true)
        else
          (d, rethos_rexmit_data_frame d.serial, true)
      else if d.serial.frametype = TYPE_ACK then
        if d.serial.in_seqno = d.serial.rexmit_seqno then
          ({ d with serial := { d.serial with rexmit_acked := true } },
           [.setRexmitTimer cancel_timer_spec], true)
        else
          (d, [], true)
      else
        (d, [], true)
    else
      let r := handleFrameReadyData rsp d
      (r.1, rethos_send_ack_frame d.serial.in_seqno ++ r.2.1, r.2.2)

/-- The `FRAME_DROPPED` handling of the dispatcher: count a bad and a lost
frame and send a NACK. -/
def handleFrameDropped (d : Daemon) : Daemon × List Action :=
  ({ d with global := { d.global with
                        bad_frames := inc64 d.global.bad_frames,
                        lost_frames := inc64 d.global.lost_frames } },
   rethos_send_nack_frame)

/-- The serial byte loop of the dispatcher: feed each byte of the block
returned by `read` to the receive state machine and handle its events.
The third component is the suffix of the block left unprocessed: the
`goto serial_done` statements in the control-frame, duplicate-frame and
empty-frame paths jump out of the `for` loop, abandoning the remaining
bytes of the block. -/
def serialLoop (rsp : List Nat) (d : Daemon) :
    List Nat → Daemon × List Action × List Nat
  | [] => (d, [], [])
  | c :: rest =>
      let r := serialHandleByte d.serial c
      let d1 := { d with serial := r.1 }
      match r.2 with
      | .NO_EVENT => serialLoop rsp d1 rest
      | .FRAME_DROPPED =>
          let h := handleFrameDropped d1
          let k := serialLoop rsp h.1 rest
          (k.1, h.2 ++ k.2.1, k.2.2)
      | .FRAME_READY =>
          let h := handleFrameReady rsp d1
          if h.2.2 then
            (h.1, h.2.1, rest)
          else
            let k := serialLoop rsp h.1 rest
            (k.1, h.2.1 ++ k.2.1, k.2.2)

/-- Stdin readiness handling: a read of zero or negative size disables
stdin, otherwise the bytes read are sent as a DATA frame on channel 1. -/
def stdinReady (d : Daemon) (input : List Nat) : Daemon × List Action :=
  if input.isEmpty then
    ({ d with haveStdin := false }, [])
  else
    let r := rethos_send_data_frame d.serial input STDIN_CHANNEL
    ({ d with serial := r.1 }, r.2)

/-- Tunnel readiness handling: the bytes read are sent as a DATA frame on
channel 3 (a failed read is logged and skipped). -/
def tunReady (d : Daemon) (input : List Nat) : Daemon × List Action :=
  if input.isEmpty then
    (d, [])
  else
    let r := rethos_send_data_frame d.serial input TUNTAP_CHANNEL
    ({ d with serial := r.1 }, r.2)

/-- IPADDR tick handling: send the MCU-address reply frame on channel 2. -/
def ipaddrTimerFire (d : Daemon) (rsp : List Nat) : Daemon × List Action :=
  let r := rethos_send_data_frame d.serial rsp CMD_CHANNEL
  ({ d with serial := r.1 }, r.2)

/-- Status codes of `read_message`. -/
inductive ReadStatus where
  | READ_SUCCESS
  | READ_EOF
  | READ_PARTIAL
  | READ_OVERFLOW
deriving DecidableEq

/-- The status computed by `read_message(status, handle, buffer,
buffer_size)` for a length prefix announcing `message_size` bytes, when
`headerAvail` bytes of the 4-byte prefix and then `avail` payload bytes can
be read before end of stream.  The `READ_PARTIAL` store is overwritten by
the final `READ_SUCCESS` store when the message fits the buffer (a dead
store in the source, mirrored here). -/
def read_message_status (buffer_size headerAvail message_size avail : Nat) :
    ReadStatus :=
  if headerAvail = 0 then .READ_EOF
  else if headerAvail < 4 then .READ_PARTIAL
  else
    let bytes_to_read := min message_size buffer_size
    let bytes_read := min bytes_to_read avail
    let _st0 := if bytes_read ≠ bytes_to_read then ReadStatus.READ_PARTIAL
                else ReadStatus.READ_SUCCESS
    if message_size > buffer_size then .READ_OVERFLOW
    else .READ_SUCCESS

/-- Connected-client readiness handling: read one length-prefixed message;
on success forward it as a DATA frame on that channel, on overflow skip it,
on EOF or partial read close the client and return the slot to listening. -/
def domainClientReady (d : Daemon) (i headerAvail message_size avail : Nat)
    (payload : List Nat) : Daemon × List Action :=
  match read_message_status MTU headerAvail message_size avail with
  | .READ_SUCCESS =>
      let d1 := { d with
        channel := bumpChannel
          (fun c => { c with domain_received := inc64 c.domain_received })
          d.channel i,
        global := { d.global with
          domain_received := inc64 d.global.domain_received } }
      let r := rethos_send_data_frame d1.serial payload i
      ({ d1 with
         serial := r.1,
         channel := bumpChannel
           (fun c => { c with serial_forwarded := inc64 c.serial_forwarded })
           d1.channel i,
         global := { d1.global with
           serial_forwarded := inc64 d1.global.serial_forwarded } }, r.2)
  | .READ_OVERFLOW => (d, [])
  | .READ_PARTIAL =>
      ({ d with clients := fun j => if j = i then false else d.clients j }, [])
  | .READ_EOF =>
      ({ d with clients := fun j => if j = i then false else d.clients j }, [])

/-- The `serial_t` at startup: `serial_t serial = {0}` followed by
`serial.rexmit_acked = true`. -/
def initSerial : Serial :=
  { sum1 := 0, sum2 := 0, state := .WAIT_FRAMESTART, frametype := 0,
    in_seqno := 0, channel := 0, frame := [], checksum := 0, in_escape := false,
    out_seqno := 0, rexmit_seqno := 0, rexmit_channel := 0, rexmit_frame := [],
    rexmit_acked := true, received_data_frame := false, last_rcvd_seqno := 0 }

/-- All statistics start at zero (`stats = {0}`). -/
def initGlobalStats : GlobalStats := ⟨0, 0, 0, 0, 0, 0, 0⟩

/-- Per-channel statistics start at zero. -/
def initChannelStats : ChannelStats := ⟨0, 0, 0, 0, 0⟩

/-- Dispatcher state at startup: no clients connected, no tunnel, stdin
watched. -/
def initDaemon : Daemon :=
  { serial := initSerial, global := initGlobalStats,
    channel := fun _ => initChannelStats, clients := fun _ => false,
    tunExists := false, haveStdin := true }

/-- An action that delivers a payload to a downstream consumer (standard
output, the tunnel, or a connected local client), as opposed to a serial
frame or a timer operation. -/
def isDelivery : Action → Bool
  | .writeStdout _ => true
  | .writeTun _ => true
  | .writeClient _ _ => true
  | _ => false

/-! ## Claims -/

/-- C4: codec round-trip.  For every frame type, 16-bit seqno, channel in
[0, 256) and payload of length at most MTU, encoding the frame with
`_send_frame` and feeding the produced bytes to the receive state machine
started in `WAIT_FRAMESTART` yields exactly one `FRAME_READY` event (and no
`FRAME_DROPPED`), with the recovered frame type, seqno, channel and payload
equal to the originals — in particular payloads containing the ESC byte
0xBE round-trip losslessly. -/
theorem c4_codec_roundtrip (s : Serial) (data : List Nat) (ch seq ft : Nat)
    (hft : ft < 256) (hseq : seq < 65536) (hch : ch < 256)
    (hdata : ∀ b ∈ data, b < 256) (hlen : data.length ≤ MTU)
    (_hinit : s.state = .WAIT_FRAMESTART) :
    (runBytes s (sendFrameBytes data ch seq ft)).2.count SerialEvent.FRAME_READY = 1 ∧
    (runBytes s (sendFrameBytes data ch seq ft)).2.count SerialEvent.FRAME_DROPPED = 0 ∧
    (runBytes s (sendFrameBytes data ch seq ft)).1.frametype = ft ∧
    (runBytes s (sendFrameBytes data ch seq ft)).1.in_seqno = seq ∧
    (runBytes s (sendFrameBytes data ch seq ft)).1.channel = ch ∧
    (runBytes s (sendFrameBytes data ch seq ft)).1.frame = data := by
  obtain ⟨k, hk⟩ := runBytes_sendFrame s data ch seq ft hft hseq hch hdata hlen
  rw [hk]
  refine ⟨?_, ?_, rfl, rfl, rfl, rfl⟩ <;>
    simp [List.count_append, List.count_replicate]

/-- C4 witness: a concrete round-trip on channel 4, seqno 7, with a
payload containing the ESC byte 0xBE. -/
theorem c4_codec_roundtrip_witness :
    (runBytes initSerial (sendFrameBytes [1, 190, 2] 4 7 1)).2.count
      SerialEvent.FRAME_READY = 1 ∧
    (runBytes initSerial (sendFrameBytes [1, 190, 2] 4 7 1)).1.frame = [1, 190, 2] := by
  have h := c4_codec_roundtrip initSerial [1, 190, 2] 4 7 1 (by decide) (by decide)
    (by decide) (by decide) (by decide) rfl
  exact ⟨h.1, h.2.2.2.2.2⟩

/-- C8: resynchronization.  After any finite garbage prefix — any byte
sequence whose processing from the initial state emits no `FRAME_READY` —
followed by the complete encoding of one valid frame, the receive state
machine emits exactly one `FRAME_READY`, and the internal buffer then holds
the frame type, seqno, channel and payload of that frame. -/
theorem c8_resynchronization (g : List Nat) (data : List Nat) (ch seq ft : Nat)
    (hft : ft < 256) (hseq : seq < 65536) (hch : ch < 256)
    (hdata : ∀ b ∈ data, b < 256) (hlen : data.length ≤ MTU)
    (hg : (runBytes initSerial g).2.count SerialEvent.FRAME_READY = 0) :
    (runBytes initSerial (g ++ sendFrameBytes data ch seq ft)).2.count
      SerialEvent.FRAME_READY = 1 ∧
    (runBytes initSerial (g ++ sendFrameBytes data ch seq ft)).1.frametype = ft ∧
    (runBytes initSerial (g ++ sendFrameBytes data ch seq ft)).1.in_seqno = seq ∧
    (runBytes initSerial (g ++ sendFrameBytes data ch seq ft)).1.channel = ch ∧
    (runBytes initSerial (g ++ sendFrameBytes data ch seq ft)).1.frame = data := by
  obtain ⟨k, hk⟩ := runBytes_sendFrame (runBytes initSerial g).1 data ch seq ft
    hft hseq hch hdata hlen
  rw [runBytes_append, hk]
  refine ⟨?_, rfl, rfl, rfl, rfl⟩
  simp [List.count_append, List.count_replicate, hg]

/-- C8 witness: three garbage bytes (a stray byte and an invalid escape
sequence) followed by a valid frame on channel 4. -/
theorem c8_resynchronization_witness :
    (runBytes initSerial ([18, 190, 7] ++ sendFrameBytes [5] 4 3 1)).2.count
      SerialEvent.FRAME_READY = 1 ∧
    (runBytes initSerial ([18, 190, 7] ++ sendFrameBytes [5] 4 3 1)).1.frame = [5] := by
  have h := c8_resynchronization [18, 190, 7] [5] 4 3 1 (by decide) (by decide)
    (by decide) (by decide) (by decide) (by decide)
  exact ⟨h.1, h.2.2.2.2⟩

theorem switchPart_frame_le (s : Serial) (c : Nat) (h : s.frame.length ≤ MTU) :
    (switchPart s c).1.frame.length ≤ MTU := by
  cases hs : s.state <;> simp only [switchPart, hs]
  case IN_FRAME =>
    split
    · simpa using h
    · simp only [List.length_append, List.length_cons, List.length_nil]
      omega
  case WAIT_CHANNEL => simp [MTU]
  case WAIT_CHECKSUM_2 =>
    split <;> simpa using h
  all_goals simpa using h

/-- C10: MTU enforcement in both directions.  (1) The receive state machine
never grows the payload buffer past MTU bytes, so `frame[numbytes]` is never
written at an index past 16383.  (2) A payload byte arriving when the buffer
already holds MTU bytes makes the frame fail with `FRAME_DROPPED`, leaving
the buffer unchanged.  (3) The stdin read path hands `rethos_send_data_frame`
at most MTU bytes (the `read` is bounded by the MTU-sized buffer), so every
emitted DATA frame and the copy into the retransmit slot stay within MTU.
(4) `read_message` reports `READ_SUCCESS` into an MTU-sized buffer only when
the announced message size is at most MTU, so the domain-socket send path is
bounded as well. -/
theorem c10_mtu_enforcement :
    (∀ (s : Serial) (c : Nat), s.frame.length ≤ MTU →
      (serialHandleByte s c).1.frame.length ≤ MTU) ∧
    (∀ (s : Serial) (c : Nat), s.state = .IN_FRAME → s.in_escape = false →
      c ≠ ESC_CHAR → MTU ≤ s.frame.length →
      (serialHandleByte s c).2 = .FRAME_DROPPED ∧
      (serialHandleByte s c).1.frame = s.frame) ∧
    (∀ (d : Daemon) (input : List Nat), input.length ≤ MTU →
      d.serial.rexmit_frame.length ≤ MTU →
      (∀ ft seq ch pl, Action.sendSerial ft seq ch pl ∈ (stdinReady d input).2 →
        pl.length ≤ MTU) ∧
      (stdinReady d input).1.serial.rexmit_frame.length ≤ MTU) ∧
    (∀ headerAvail m avail,
      read_message_status MTU headerAvail m avail = .READ_SUCCESS → m ≤ MTU) := by
  refine ⟨?_, ?_, ?_, ?_⟩
  · intro s c h
    simp only [serialHandleByte]
    split
    · simpa using h
    · split
      · split
        · exact switchPart_frame_le _ _ (by simpa using h)
        · split
          · simpa using h
          · split
            · split <;> simpa using h
            · simpa using h
      · exact switchPart_frame_le _ _ h
  · intro s c hstate hesc hc hfull
    simp only [serialHandleByte, if_neg hc, hesc, Bool.false_eq_true, if_false]
    simp only [switchPart, hstate]
    rw [if_pos (by omega)]
    exact ⟨rfl, rfl⟩
  · intro d input hin hslot
    simp only [stdinReady]
    split
    · refine ⟨?_, by simpa using hslot⟩
      intro ft seq ch pl hmem
      simp at hmem
    · refine ⟨?_, by simpa using hin⟩
      intro ft seq ch pl hmem
      simp only [rethos_send_data_frame, List.mem_cons, List.not_mem_nil,
        or_false] at hmem
      rcases hmem with h | h
      · cases h
        exact hin
      · cases h
  · intro headerAvail m avail hst
    simp only [read_message_status] at hst
    split at hst
    · cases hst
    · split at hst
      · cases hst
      · split at hst
        · cases hst
        · omega

/-- A receiver in `IN_FRAME` whose payload buffer already holds MTU bytes. -/
def fullBufSerial : Serial :=
  { initSerial with state := .IN_FRAME, frame := List.replicate 16384 0 }

/-- C10 witness: concrete instances of each conjunct — a byte fed to the
initial receiver, a payload byte arriving on a full buffer, a 3-byte stdin
read, and a successful 20-byte domain-socket message. -/
theorem c10_mtu_enforcement_witness :
    (serialHandleByte initSerial 5).1.frame.length ≤ MTU ∧
    (serialHandleByte fullBufSerial 7).2 = SerialEvent.FRAME_DROPPED ∧
    (stdinReady initDaemon [1, 2, 3]).1.serial.rexmit_frame.length ≤ MTU ∧
    (20 : Nat) ≤ MTU := by
  obtain ⟨h1, h2, h3, h4⟩ := c10_mtu_enforcement
  refine ⟨h1 initSerial 5 (by decide), ?_, ?_, ?_⟩
  · exact (h2 fullBufSerial 7 rfl rfl (by decide)
      (by rw [show fullBufSerial.frame = List.replicate 16384 0 from rfl,
              List.length_replicate]
          decide)).1
  · exact (h3 initDaemon [1, 2, 3] (by decide) (by decide)).2
  · exact h4 4 20 20 rfl
/-- C5: NACK handling.  On a NACK frame (channel 0, type 0x5): while the
retransmit slot is unacked the stored frame is retransmitted with its
stored seqno, channel and payload, without touching the outbound counter or
the slot; if the slot is acked and a DATA frame has been received before,
an ACK of the last received seqno is sent; if the slot is acked and no DATA
frame was ever received, nothing is sent; and no NACK is ever sent in reply
to a NACK. -/
theorem c5_nack_handling (rsp : List Nat) (d : Daemon)
    (hch : d.serial.channel = RESERVED_CHANNEL)
    (hft : d.serial.frametype = TYPE_NACK) :
    (d.serial.rexmit_acked = false →
      (handleFrameReady rsp d).2.1 =
        [Action.sendSerial TYPE_DATA d.serial.rexmit_seqno
          d.serial.rexmit_channel d.serial.rexmit_frame] ∧
      (handleFrameReady rsp d).1.serial.out_seqno = d.serial.out_seqno ∧
      (handleFrameReady rsp d).1.serial.rexmit_seqno = d.serial.rexmit_seqno ∧
      (handleFrameReady rsp d).1.serial.rexmit_channel = d.serial.rexmit_channel ∧
      (handleFrameReady rsp d).1.serial.rexmit_frame = d.serial.rexmit_frame) ∧
    (d.serial.rexmit_acked = true → d.serial.received_data_frame = true →
      (handleFrameReady rsp d).2.1 =
        [Action.sendSerial TYPE_ACK d.serial.last_rcvd_seqno RESERVED_CHANNEL []]) ∧
    (d.serial.rexmit_acked = true → d.serial.received_data_frame = false →
      (handleFrameReady rsp d).2.1 = []) ∧
    (∀ a ∈ (handleFrameReady rsp d).2.1, ∀ seq ch2 pl,
      a ≠ Action.sendSerial TYPE_NACK seq ch2 pl) := by
  have hlt : ¬ d.serial.channel ≥ NUM_CHANNELS := by
    rw [hch]
    decide
  cases ha : d.serial.rexmit_acked <;> cases hr : d.serial.received_data_frame <;>
    simp [handleFrameReady, hlt, hch, hft, ha, hr, rethos_rexmit_data_frame,
      rethos_send_ack_frame, RESERVED_CHANNEL, NUM_CHANNELS, TYPE_NACK,
      TYPE_ACK, TYPE_DATA]

/-- C5 witness: a NACK arriving while a freshly sent frame (seqno 1,
channel 4, payload [7]) is unacked causes exactly its retransmission. -/
theorem c5_nack_handling_witness :
    ({ initDaemon with serial :=
        { (rethos_send_data_frame initSerial [7] 4).1 with
          channel := 0, frametype := 5 } } : Daemon).serial.rexmit_acked = false ∧
    (handleFrameReady [] { initDaemon with serial :=
        { (rethos_send_data_frame initSerial [7] 4).1 with
          channel := 0, frametype := 5 } }).2.1 =
      [Action.sendSerial TYPE_DATA 1 4 [7]] := by
  have h := c5_nack_handling []
    ({ initDaemon with serial :=
        { (rethos_send_data_frame initSerial [7] 4).1 with
          channel := 0, frametype := 5 } }) rfl rfl
  refine ⟨rfl, ?_⟩
  have h2 := (h.1 rfl).1
  rw [h2]
  decide

/-- A duplicate DATA frame (same seqno as the last received one) is not
processed further: no state change, no actions beyond the ACK, and the
byte loop is abandoned. -/
theorem handleFrameReadyData_dup (rsp : List Nat) (d : Daemon)
    (hrcv : d.serial.received_data_frame = true)
    (heq : d.serial.in_seqno = d.serial.last_rcvd_seqno) :
    handleFrameReadyData rsp d = (d, [], true) := by
  simp [handleFrameReadyData, hrcv, heq]

/-- Receiving a duplicate DATA frame (same seqno as the last received one)
on a nonzero channel: only the ACK is emitted. -/
theorem handleFrameReady_duplicate (rsp : List Nat) (d2 : Daemon)
    (h0 : d2.serial.channel ≠ RESERVED_CHANNEL)
    (hlt : ¬ d2.serial.channel ≥ NUM_CHANNELS)
    (hrcv : d2.serial.received_data_frame = true)
    (heq : d2.serial.in_seqno = d2.serial.last_rcvd_seqno) :
    (handleFrameReady rsp d2).2.1 =
      [Action.sendSerial TYPE_ACK d2.serial.in_seqno RESERVED_CHANNEL []] := by
  simp [handleFrameReady, hlt, h0, hrcv, heq, handleFrameReadyData_dup,
    rethos_send_ack_frame]

/-- Actions of the data path for a fresh nonempty frame on a
general-purpose channel with a connected client: exactly one delivery. -/
theorem handleFrameReadyData_acts (rsp : List Nat) (d : Daemon)
    (hch4 : 4 ≤ d.serial.channel)
    (hdup : ¬ (d.serial.received_data_frame = true ∧
      d.serial.in_seqno = d.serial.last_rcvd_seqno))
    (hlen : d.serial.frame.length ≠ 0)
    (hcl : d.clients d.serial.channel = true) :
    (handleFrameReadyData rsp d).2.1 =
      [Action.writeClient d.serial.channel d.serial.frame] := by
  have hne1 : d.serial.channel ≠ STDIN_CHANNEL := by
    simp only [STDIN_CHANNEL]
    omega
  have hne2 : d.serial.channel ≠ CMD_CHANNEL := by
    simp only [CMD_CHANNEL]
    omega
  have hne3 : d.serial.channel ≠ TUNTAP_CHANNEL := by
    simp only [TUNTAP_CHANNEL]
    omega
  simp [handleFrameReadyData, hdup, hlen, hne1, hne2, hne3, hcl]

/-- The data path updates only the duplicate-detection fields of the
`serial_t` on a general-purpose channel (no command reply is sent). -/
theorem handleFrameReadyData_serial (rsp : List Nat) (d : Daemon)
    (hch4 : 4 ≤ d.serial.channel)
    (hdup : ¬ (d.serial.received_data_frame = true ∧
      d.serial.in_seqno = d.serial.last_rcvd_seqno))
    (hlen : d.serial.frame.length ≠ 0) :
    (handleFrameReadyData rsp d).1.serial =
      { d.serial with received_data_frame := true,
                      last_rcvd_seqno := d.serial.in_seqno } := by
  have hne1 : d.serial.channel ≠ STDIN_CHANNEL := by
    simp only [STDIN_CHANNEL]
    omega
  have hne2 : d.serial.channel ≠ CMD_CHANNEL := by
    simp only [CMD_CHANNEL]
    omega
  have hne3 : d.serial.channel ≠ TUNTAP_CHANNEL := by
    simp only [TUNTAP_CHANNEL]
    omega
  by_cases hcl : d.clients d.serial.channel = true <;>
    simp [handleFrameReadyData, hdup, hlen, hne1, hne2, hne3, hcl]

/-- C6: for every DATA frame received on a channel at least 1, an ACK of
the received seqno is the first emitted action, before the duplicate check
and before any delivery; a frame whose seqno equals the last received one
(after at least one reception) is not delivered downstream; and receiving
the same fresh frame twice in a row on a general-purpose channel with a
connected client yields exactly one downstream delivery and two ACKs of the
same seqno. -/
theorem c6_duplicate_suppression (rsp : List Nat) (d : Daemon)
    (hch4 : 4 ≤ d.serial.channel) (hchlt : d.serial.channel < NUM_CHANNELS)
    (hcl : d.clients d.serial.channel = true)
    (hne : d.serial.frame ≠ [])
    (hfresh : d.serial.received_data_frame = false ∨
      d.serial.in_seqno ≠ d.serial.last_rcvd_seqno) :
    (∀ d2 : Daemon, 1 ≤ d2.serial.channel → d2.serial.channel < NUM_CHANNELS →
      (handleFrameReady rsp d2).2.1.head? =
        some (Action.sendSerial TYPE_ACK d2.serial.in_seqno RESERVED_CHANNEL [])) ∧
    (handleFrameReady rsp d).2.1 =
      [Action.sendSerial TYPE_ACK d.serial.in_seqno RESERVED_CHANNEL [],
       Action.writeClient d.serial.channel d.serial.frame] ∧
    (handleFrameReady rsp d).2.1.filter isDelivery =
      [Action.writeClient d.serial.channel d.serial.frame] ∧
    (handleFrameReady rsp (handleFrameReady rsp d).1).2.1 =
      [Action.sendSerial TYPE_ACK d.serial.in_seqno RESERVED_CHANNEL []] ∧
    (handleFrameReady rsp (handleFrameReady rsp d).1).2.1.filter isDelivery = [] := by
  have hne0 : d.serial.channel ≠ RESERVED_CHANNEL := by
    simp only [RESERVED_CHANNEL]
    omega
  have hnlt : ¬ d.serial.channel ≥ NUM_CHANNELS := by omega
  have hlen : d.serial.frame.length ≠ 0 := by
    simpa [List.length_eq_zero] using hne
  have hdup : ¬ (d.serial.received_data_frame = true ∧
      d.serial.in_seqno = d.serial.last_rcvd_seqno) := by
    rcases hfresh with h | h <;> simp [h]
  have hackfirst : ∀ d2 : Daemon, 1 ≤ d2.serial.channel →
      d2.serial.channel < NUM_CHANNELS →
      (handleFrameReady rsp d2).2.1.head? =
        some (Action.sendSerial TYPE_ACK d2.serial.in_seqno RESERVED_CHANNEL []) := by
    intro d2 h1 h2
    have hn0 : d2.serial.channel ≠ RESERVED_CHANNEL := by
      simp only [RESERVED_CHANNEL]
      omega
    have hn256 : ¬ d2.serial.channel ≥ NUM_CHANNELS := by omega
    simp only [handleFrameReady, if_neg hn256, if_neg hn0]
    rfl
  have hacts1 : (handleFrameReady rsp d).2.1 =
      [Action.sendSerial TYPE_ACK d.serial.in_seqno RESERVED_CHANNEL [],
       Action.writeClient d.serial.channel d.serial.frame] := by
    simp [handleFrameReady, hnlt, hne0, rethos_send_ack_frame,
      handleFrameReadyData_acts rsp _ hch4 hdup hlen hcl,
      handleFrameReadyData_acts, hch4, hdup, hlen, hcl]
  have hserial1 : (handleFrameReady rsp d).1.serial =
      { d.serial with received_data_frame := true,
                      last_rcvd_seqno := d.serial.in_seqno } := by
    simp [handleFrameReady, hnlt, hne0, handleFrameReadyData_serial,
      hch4, hdup, hlen]
  have hacts2 : (handleFrameReady rsp (handleFrameReady rsp d).1).2.1 =
      [Action.sendSerial TYPE_ACK d.serial.in_seqno RESERVED_CHANNEL []] := by
    rw [handleFrameReady_duplicate rsp ((handleFrameReady rsp d).1)
      (by rw [hserial1]; exact hne0)
      (by rw [hserial1]; exact hnlt)
      (by rw [hserial1])
      (by rw [hserial1])]
    rw [hserial1]
  refine ⟨hackfirst, hacts1, ?_, hacts2, ?_⟩
  · rw [hacts1]
    simp [isDelivery]
  · rw [hacts2]
    simp [isDelivery]

/-- A daemon that has just received a DATA frame with seqno 9 and payload
[1, 2] on channel 4, with a client connected on that channel. -/
def c6Daemon : Daemon :=
  { initDaemon with
    clients := fun i => i == 4
    serial := { initSerial with
      channel := 4
      frametype := TYPE_DATA
      in_seqno := 9
      frame := [1, 2] } }

/-- C6 witness: the same frame handled twice in a row yields one delivery
and two ACKs of seqno 9. -/
theorem c6_duplicate_suppression_witness :
    (handleFrameReady [] c6Daemon).2.1 =
      [Action.sendSerial TYPE_ACK 9 RESERVED_CHANNEL [],
       Action.writeClient 4 [1, 2]] ∧
    (handleFrameReady [] (handleFrameReady [] c6Daemon).1).2.1 =
      [Action.sendSerial TYPE_ACK 9 RESERVED_CHANNEL []] := by
  have h := c6_duplicate_suppression [] c6Daemon (by decide) (by decide) rfl
    (by decide) (Or.inl rfl)
  exact ⟨h.2.1, h.2.2.2.1⟩

/-- C1 counterexample: the claim says a new DATA frame is never sent while
the retransmit slot is unacked.  In the code, after one DATA send (slot
unacked, no ACK received), a stdin read of one byte immediately sends a new
DATA frame with the next sequence number. -/
theorem c1_counterexample :
    ({ initDaemon with serial := (rethos_send_data_frame initSerial [9] 4).1 }
      : Daemon).serial.rexmit_acked = false ∧
    (stdinReady
      { initDaemon with serial := (rethos_send_data_frame initSerial [9] 4).1 }
      [2]).2 =
      [Action.sendSerial TYPE_DATA 2 STDIN_CHANNEL [2],
       Action.setRexmitTimer rexmit_timer_spec] := by
  decide

/-- C1 (amended): the retransmit slot holds at most one frame, but the
sender does not wait for an acknowledgment: a stdin read sends a new DATA
frame even while the slot is unacked, consuming the next sequence number
and overwriting the slot (abandoning retransmission of the previous
frame). -/
theorem c1_amended (d : Daemon) (input : List Nat) (hne : input ≠ [])
    ( _hack : d.serial.rexmit_acked = false) :
    (stdinReady d input).2 =
      [Action.sendSerial TYPE_DATA ((d.serial.out_seqno + 1) % 65536)
        STDIN_CHANNEL input,
       Action.setRexmitTimer rexmit_timer_spec] ∧
    (stdinReady d input).1.serial.rexmit_acked = false ∧
    (stdinReady d input).1.serial.rexmit_frame = input ∧
    (stdinReady d input).1.serial.rexmit_seqno = (d.serial.out_seqno + 1) % 65536 ∧
    (stdinReady d input).1.serial.out_seqno = (d.serial.out_seqno + 1) % 65536 := by
  have hemp : ¬ input.isEmpty = true := by
    simp [List.isEmpty_iff, hne]
  simp [stdinReady, hemp, rethos_send_data_frame]

/-- C1 amended witness: sending from stdin while seqno-1 frame [9] is
still unacked. -/
theorem c1_amended_witness :
    ({ initDaemon with serial := (rethos_send_data_frame initSerial [9] 4).1 }
      : Daemon).serial.rexmit_acked = false ∧
    (stdinReady
      { initDaemon with serial := (rethos_send_data_frame initSerial [9] 4).1 }
      [2]).1.serial.rexmit_frame = [2] := by
  have h := c1_amended
    ({ initDaemon with serial := (rethos_send_data_frame initSerial [9] 4).1 })
    [2] (by decide) (by decide)
  exact ⟨by decide, h.2.2.1⟩

/-- C7 counterexample: the claim says the REXMIT timer is one-shot and
fires at most once after a single DATA send with no ACK.  The timer spec in
the code has `it_interval` = 100 ms (nonzero), so under the POSIX timer
contract it fires periodically; already two firings retransmit the stored
frame twice. -/
theorem c7_counterexample :
    rexmit_timer_spec.it_interval ≠ ⟨0, 0⟩ ∧
    ¬ timerOneShot rexmit_timer_spec ∧
    rexmitFires (rethos_send_data_frame initSerial [7] 4).1 2 =
      [Action.sendSerial TYPE_DATA 1 4 [7],
       Action.sendSerial TYPE_DATA 1 4 [7]] := by
  refine ⟨by decide, by simp [timerOneShot]; decide, by decide⟩

/-- C7 (amended): the REXMIT timer is periodic, armed with interval and
initial expiration both 100 ms; every outbound DATA send (re)arms it with
that spec, while the slot is unacked every firing retransmits the stored
frame unchanged (so with no ACK it retransmits once per 100 ms period, not
at most once), a matching ACK cancels the timer
(`timer_settime(cancel_timer_spec)`) and marks the slot acked, and once the
slot is acked firings produce nothing. -/
theorem c7_amended (s : Serial) (n : Nat) (hun : s.rexmit_acked = false) :
    rexmit_timer_spec.it_interval = ⟨0, 100000000⟩ ∧
    rexmit_timer_spec.it_value = ⟨0, 100000000⟩ ∧
    (∀ data ch, (rethos_send_data_frame s data ch).2.getLast? =
      some (Action.setRexmitTimer rexmit_timer_spec)) ∧
    rexmitFires s n = List.replicate n
      (Action.sendSerial TYPE_DATA s.rexmit_seqno s.rexmit_channel
        s.rexmit_frame) ∧
    (∀ s2 : Serial, s2.rexmit_acked = true → rexmitFires s2 n = []) ∧
    (∀ (rsp : List Nat) (d : Daemon), d.serial.channel = RESERVED_CHANNEL →
      d.serial.frametype = TYPE_ACK →
      d.serial.in_seqno = d.serial.rexmit_seqno →
      (handleFrameReady rsp d).2.1 = [Action.setRexmitTimer cancel_timer_spec] ∧
      (handleFrameReady rsp d).1.serial.rexmit_acked = true) := by
  refine ⟨rfl, rfl, ?_, ?_, ?_, ?_⟩
  · intro data ch
    rfl
  · induction n with
    | zero => rfl
    | succ k ih =>
      simp only [rexmitFires, List.replicate_succ, List.flatten_cons] at *
      rw [ih]
      simp [rexmitTimerFire, hun, rethos_rexmit_data_frame]
  · intro s2 h2
    induction n with
    | zero => rfl
    | succ k ih =>
      simp only [rexmitFires, List.replicate_succ, List.flatten_cons] at *
      rw [ih]
      simp [rexmitTimerFire, h2]
  · intro rsp d hch hft hseq
    constructor <;>
      simp [handleFrameReady, hch, hft, hseq, RESERVED_CHANNEL, NUM_CHANNELS,
        TYPE_ACK, TYPE_NACK]

/-- C7 amended witness: two timer firings after sending DATA seqno 1 on
channel 4 with payload [7] retransmit it twice. -/
theorem c7_amended_witness :
    (rethos_send_data_frame initSerial [7] 4).1.rexmit_acked = false ∧
    rexmitFires (rethos_send_data_frame initSerial [7] 4).1 2 =
      List.replicate 2 (Action.sendSerial TYPE_DATA 1 4 [7]) := by
  have h := c7_amended (rethos_send_data_frame initSerial [7] 4).1 2 (by decide)
  exact ⟨by decide, h.2.2.2.1⟩

/-- A daemon about to handle a DATA frame with seqno 0 on channel 4 right
after last-received seqno 65535 (the wraparound case). -/
def c2Daemon : Daemon :=
  { initDaemon with
    serial := { initSerial with
      channel := 4
      frametype := TYPE_DATA
      in_seqno := 0
      frame := [1]
      received_data_frame := true
      last_rcvd_seqno := 65535 } }

/-- C2 bug: `lost_frames += (in_seqno - last_rcvd_seqno - 1)` computes the
difference in `int` and converts the negative result to `uint64_t`, so at
the wraparound (last 65535, new 0) the counter jumps by 2^64 - 65536
instead of staying unchanged (the claimed increment
`(s - s0 - 1) mod 2^16` is 0 there). -/
theorem c2_loss_accounting_bug :
    lostUpdate 0 65535 0 = 18446744073709486080 ∧
    ((0 : Int) + 0 - 65535 - 1) % (2 ^ 16 : Int) = 0 ∧
    lostUpdate 0 65535 0 ≠ (0 + (0 + 65536 - 65535 - 1) % 65536) ∧
    (handleFrameReady [] c2Daemon).1.global.lost_frames =
      18446744073709486080 := by
  refine ⟨by decide, by decide, by decide, ?_⟩
  rfl

/-- The byte block the C3 theorem feeds the dispatcher in one serial read:
a complete ACK frame followed by one further byte. -/
def c3Bytes : List Nat := sendFrameBytes [] 0 7 TYPE_ACK ++ [0x42]

/-- C3 bug: handling a control frame ends in `goto serial_done`, which
abandons the rest of the bytes of the current serial read block.  Feeding
one read block holding a complete ACK frame followed by one more byte
leaves that byte unprocessed (the claim says all n bytes of the block are
fed to the state machine). -/
theorem c3_partial_read_bug :
    (serialLoop [] initDaemon c3Bytes).2.2 = [0x42] ∧
    c3Bytes.length = 11 := by
  constructor
  · rfl
  · rfl

/-- A daemon about to handle a DATA frame on the command channel (2) with
seqno 5 and payload [0x01] (the GET_MCU_IP_ADDR opcode). -/
def c9Daemon : Daemon :=
  { initDaemon with
    serial := { initSerial with
      channel := CMD_CHANNEL
      frametype := TYPE_DATA
      in_seqno := 5
      frame := [CMD_GET_MCU_IP_ADDR] } }

/-- C9 bug: the reply to opcode 0x01 is sent as `sizeof(mcu_addr_rsp_frame)`
bytes of an unpacked `{ char resp_type; struct in6_addr addr; }`, i.e. 20
bytes — the response byte, three uninitialized padding bytes, then the 16
address bytes — not the claimed 17-byte `0x11 ++ address`. -/
theorem c9_cmd_reply_padding_bug (p1 p2 p3 : Nat) (addr : List Nat)
    (haddr : addr.length = 16) :
    (handleFrameReady (mcu_addr_rsp_frame p1 p2 p3 addr) c9Daemon).2.1 =
      [Action.sendSerial TYPE_ACK 5 RESERVED_CHANNEL [],
       Action.sendSerial TYPE_DATA 1 CMD_CHANNEL
         (mcu_addr_rsp_frame p1 p2 p3 addr),
       Action.setRexmitTimer rexmit_timer_spec] ∧
    (mcu_addr_rsp_frame p1 p2 p3 addr).length = 20 ∧
    mcu_addr_rsp_frame p1 p2 p3 addr ≠ RSP_GET_MCU_IP_ADDR :: addr := by
  refine ⟨rfl, ?_, ?_⟩
  · simp [mcu_addr_rsp_frame, haddr]
  · intro h
    have := congrArg List.length h
    simp [mcu_addr_rsp_frame, haddr] at this

/-- C9 witness: with the all-zero address and zero padding bytes the reply
frame is 20 bytes and differs from the 17-byte claimed layout. -/
theorem c9_cmd_reply_padding_bug_witness :
    (mcu_addr_rsp_frame 0 0 0 (List.replicate 16 0)).length = 20 ∧
    mcu_addr_rsp_frame 0 0 0 (List.replicate 16 0) ≠
      RSP_GET_MCU_IP_ADDR :: List.replicate 16 0 := by
  have h := c9_cmd_reply_padding_bug 0 0 0 (List.replicate 16 0) (by decide)
  exact ⟨h.2.1, h.2.2⟩

end Rethos
